import Mathlib

/-!
Shallow embedding of the beancount-importers repository (PayPal, Upwork and
Schwab CSV importers) together with proofs about the row-classification and
balance-assertion logic.

Modelling conventions:
* Dates are day ordinals in ℤ; `parse_date(...).date()` results become such
  ordinals, `datetime.timedelta(days=1)` becomes `+ 1`, and date comparison
  becomes `<` on ℤ.
* Decimal amounts (`beancount.core.number.D`) are modelled as ℚ.  The PayPal
  `Amount` CSV cell, which the source tests for emptiness (`if not txn_amt`),
  is `Option ℚ` with `none` for the empty cell; likewise the two Schwab
  amount cells.
* Running-balance CSV cells are kept as raw strings, because the PayPal
  source compares them with Python string equality (`balance ==
  prev_balances[txn_cur]`) and only parses them when a Balance directive is
  built; the directive stores the raw string here.
* A Python exception aborting `extract` is an `Except.error`; a run that
  raises produces no entries at all, matching the all-or-nothing behaviour.
* CSV parsing, filename matching, header validation and directive metadata
  (`data.new_metadata`) are out of scope, as in the specification; step
  functions consume already-parsed rows.
* Python `dict` values (`prev_balances`, `bank_account_dict`) are
  insertion-ordered association lists; `set` values (`self.txn_dates`) are
  lists of distinct elements in insertion order.
* The loop-local Python variable `src_acc` in the PayPal importer persists
  across loop iterations and raises `NameError` when read before ever being
  assigned (possible for a zero first amount); the state carries it as an
  `Option String`.
-/

attribute [local semireducible] Rat.add Rat.mul Rat.inv Rat.sub Rat.ofScientific

/-- Default currency (source: utils.py, `USD`). -/
def USD : String := "USD"

/-- Beancount warning flag (`flags.FLAG_WARNING`). -/
def FLAG_WARNING : String := "!"

/-- Beancount okay flag (`flags.FLAG_OKAY`). -/
def FLAG_OKAY : String := "*"

/-- Amount of a posting: a number and a currency (beancount `data.Amount`). -/
structure Amount where
  number : ℚ
  currency : String
deriving DecidableEq

/-- One leg of a transaction (beancount `data.Posting`; cost/meta omitted). -/
structure Posting where
  account : String
  units : Amount
  price : Option Amount
deriving DecidableEq

/-- Ledger directives emitted by the importers.  `balance` keeps the raw
balance string from the CSV together with the currency it is parsed into. -/
inductive Entry where
  | openAcc (date : ℤ) (account : String) (currencies : List String)
  | pad (date : ℤ) (account : String) (sourceAccount : String)
  | txn (date : ℤ) (flag : String) (narration : String) (tags : List String)
      (postings : List Posting)
  | balance (date : ℤ) (account : String) (amountStr : String) (currency : String)
deriving DecidableEq

deriving instance DecidableEq for Except

/-- Lookup in an insertion-ordered association list (Python `dict` read). -/
def lookupAssoc (m : List (String × String)) (k : String) : Option String :=
  match m with
  | [] => none
  | p :: rest => if p.1 = k then some p.2 else lookupAssoc rest k

/-- Update of an insertion-ordered association list (Python `dict` write):
an existing key keeps its position, a new key is appended. -/
def insertAssoc (m : List (String × String)) (k v : String) :
    List (String × String) :=
  match m with
  | [] => [(k, v)]
  | p :: rest => if p.1 = k then (k, v) :: rest else p :: insertAssoc rest k v

/-- Posting with no metadata or cost basis (source: utils.simple_posting). -/
def simple_posting (account : String) (amount : ℚ) (negative : Bool)
    (currency : String) : Posting :=
  { account := account
    units := { number := if negative then -amount else amount, currency := currency }
    price := none }

/-- Debit/credit pair: add `amount` to `pos_acc`, subtract it from `neg_acc`
(source: utils.simple_posting_pair). -/
def simple_posting_pair (pos_acc neg_acc : String) (amount : ℚ)
    (currency : String) : List Posting :=
  [simple_posting pos_acc amount false currency,
   simple_posting neg_acc amount true currency]

/-- Open directive for one account (source: utils.open_account). -/
def open_account (account : String) (openDate : ℤ) (currencies : List String) :
    Entry :=
  .openAcc openDate account currencies

/-- Open directives for several accounts (source: utils.open_accounts). -/
def open_accounts (accounts : List String) (openDate : ℤ)
    (currencies : List String) : List Entry :=
  accounts.map (fun a => open_account a openDate currencies)

/-- Open directives in USD (source: utils.open_usd_accounts). -/
def open_usd_accounts (accounts : List String) (openDate : ℤ) : List Entry :=
  open_accounts accounts openDate [USD]

/-- Pad directive from Equity:OpeningBalances (source: utils.pad_account). -/
def pad_account (account : String) (date : ℤ) : Entry :=
  .pad date account "Equity:OpeningBalances"

/-! Rounding to five significant figures, the model of the Python
expression `D(f"{conversion_rate:.5g}")`: format to five significant
digits with round-half-even, then parse the result back.  All helpers are
fuel-free structural recursions so that concrete witnesses evaluate inside
the kernel. -/

/-- Absolute value on ℚ, written out so the kernel evaluates it directly. -/
def qabs (q : ℚ) : ℚ := if q < 0 then -q else q

/-- Power of ten as a rational. -/
def pow10 (n : ℕ) : ℚ := ((10 ^ n : ℕ) : ℚ)

/-- Integer power of ten as a rational. -/
def qpow10 (e : ℤ) : ℚ := if 0 ≤ e then pow10 e.toNat else 1 / pow10 (-e).toNat

/-- Fueled base-ten logarithm on ℕ: counts divisions by ten until below ten. -/
def log10fuel : ℕ → ℕ → ℕ
  | 0, _ => 0
  | fuel + 1, n => if n < 10 then 0 else log10fuel fuel (n / 10) + 1

/-- Base-ten logarithm (floor) of a natural number, zero on zero. -/
def natLog10 (n : ℕ) : ℕ := log10fuel n n

/-- Floor of the base-ten logarithm of the absolute value of a nonzero
rational: the unique `e` with `10 ^ e ≤ qabs q < 10 ^ (e + 1)`. -/
def floorLog10 (q : ℚ) : ℤ :=
  let a : ℤ := (natLog10 q.num.natAbs : ℤ)
  let b : ℤ := (natLog10 q.den : ℤ)
  if qpow10 (a - b) ≤ qabs q then a - b else a - b - 1

/-- Round a rational to the nearest integer, ties to the even integer
(Decimal ROUND_HALF_EVEN). -/
def roundHalfEven (q : ℚ) : ℤ :=
  let f := q.floor
  let r := q - (f : ℚ)
  if r < 1 / 2 then f
  else if (1 / 2 : ℚ) < r then f + 1
  else if f % 2 = 0 then f else f + 1

/-- Round a rational to five significant figures, ties to even: the model of
formatting with `f"{x:.5g}"` and parsing the result with `D`. -/
def sigRound5 (q : ℚ) : ℚ :=
  if q = 0 then 0
  else
    let scale := qpow10 (4 - floorLog10 q)
    (roundHalfEven (q * scale) : ℚ) / scale

/-! PayPal importer (source: paypal_csv.py). -/

/-- PayPal balance account (`Account.BAL`). -/
def PAYPAL_BAL : String := "Assets:Paypal:Balance"

/-- PayPal held-funds account (`Account.HELD`). -/
def PAYPAL_HELD : String := "Assets:Paypal:Held"

/-- PayPal donations account (`Account.DON`). -/
def PAYPAL_DON : String := "Expenses:Donations:Paypal"

/-- PayPal in-transit account (`Account.TRANS`). -/
def PAYPAL_TRANS : String := "Assets:InTransit:Paypal"

/-- Fallback income account (`DEFAULT_INCOME_ACC`). -/
def DEFAULT_INCOME_ACC : String := "Income:Uncategorized"

/-- Fallback expense account (`DEFAULT_EXPENSE_ACC`). -/
def DEFAULT_EXPENSE_ACC : String := "Expenses:Uncategorized"

/-- The members of the `TxnStatus` enum; `TxnStatus(...)` raises on any
other status string. -/
def paypalValidStatuses : List String :=
  ["Completed", "Denied", "Expired", "Pending", "Reversed"]

/-- Transaction types skipped because they move no funds (`skip_types`). -/
def paypalSkipTypes : List String := ["Request Received", "Request Sent"]

/-- Transaction types the PayPal importer branches on anywhere in `extract`.
The source has no `TxnType` enum for PayPal (one is commented out), so these
are exactly the literals appearing in its conditionals. -/
def paypalHandledTypes : List String :=
  ["Request Received", "Request Sent", "General Withdrawal",
   "Donation Payment", "Payment Hold", "Payment Release",
   "General Currency Conversion"]

/-- One parsed PayPal CSV row.  `name`, `type`, `status` and `currency` are
the already-stripped column values; `amount` is `none` for an empty Amount
cell; `balance` is the raw Balance cell. -/
structure PaypalRow where
  date : ℤ
  name : String
  type : String
  status : String
  amount : Option ℚ
  currency : String
  balance : String
deriving DecidableEq

/-- Narration of a PayPal transaction: the Name column, falling back to the
Type column when Name is empty (`row[NAME].strip() or row[TYPE].strip()`). -/
def paypalDesc (r : PaypalRow) : String := if r.name = "" then r.type else r.name

/-- State threaded through one PayPal `extract` loop.  `txnDates` models the
instance attribute `self.txn_dates` (which outlives the call); the other
three fields model the loop-local variables `prev_balances`,
`first_conv_posting` and `src_acc`. -/
structure PaypalState where
  txnDates : List ℤ
  prevBalances : List (String × String)
  firstConv : Option Posting
  srcAcc : Option String
deriving DecidableEq

/-- Second leg of a currency-conversion pair, priced with the rounded
conversion rate in the first leg's currency (source lines 247-263). -/
def pricedSecond (p1 : Posting) (amt : ℚ) (currency : String) : Posting :=
  let p2 := simple_posting PAYPAL_BAL amt false currency
  { p2 with price := some ⟨sigRound5 (-p1.units.number / p2.units.number),
                           p1.units.currency⟩ }

/-- Transaction-entry construction for one non-skipped PayPal row (source
lines 231-293): currency-conversion pairing or a simple posting pair.
Returns the emitted transaction entries and the new conversion buffer.  Note
that emitting a paired conversion does NOT clear the buffer: the source only
resets `first_conv_posting` in the non-conversion branch. -/
def paypalPostings (firstConv : Option Posting) (r : PaypalRow) (amt : ℚ)
    (dst_acc : String) (srcAcc : Option String) (flag : String) :
    Except String (List Entry × Option Posting) :=
  if r.type = "General Currency Conversion" then
    match firstConv with
    | none =>
      -- first leg: buffer it, emit nothing (`no_output = True`)
      .ok ([], some (simple_posting PAYPAL_BAL amt false r.currency))
    | some p1 =>
      let p2 := simple_posting PAYPAL_BAL amt false r.currency
      if p2.units.number = 0 then .error "DivisionByZero: x / 0"
      else
        .ok ([Entry.txn r.date FLAG_OKAY (paypalDesc r)
                ["paypal", "currency-conversion"] [p1, pricedSecond p1 amt r.currency]],
             some p1)
  else
    match srcAcc with
    | none => .error "NameError: src_acc referenced before assignment"
    | some src =>
      .ok ([Entry.txn r.date flag (paypalDesc r) ["paypal"]
              (simple_posting_pair dst_acc src amt r.currency)],
           none)

/-- Fallback source account chosen by the sign of the amount (source lines
183-187); a zero amount leaves the Python local `src_acc` untouched. -/
def paypalSa1 (srcAcc : Option String) (amt : ℚ) : Option String :=
  if 0 < amt then some DEFAULT_INCOME_ACC
  else if amt < 0 then some DEFAULT_EXPENSE_ACC
  else srcAcc

/-- Source-account override by transaction type (source lines 211-217). -/
def paypalSa2 (r : PaypalRow) (sa1 : Option String) : Option String :=
  if r.type = "Donation Payment" then some PAYPAL_DON
  else if r.type = "Payment Hold" ∨ r.type = "Payment Release" then
    some PAYPAL_HELD
  else sa1

/-- Transaction flag: warning unless the type branch sets the okay flag. -/
def paypalFlag (r : PaypalRow) : String :=
  if r.type = "Donation Payment" ∨ r.type = "Payment Hold" ∨
      r.type = "Payment Release" then FLAG_OKAY
  else FLAG_WARNING

/-- Balance-assertion block (source lines 299-317): on the first encounter
of a transaction date, record the date and emit one assertion per currency
recorded in `prev_balances`, dated at that same date. -/
def paypalBalBlock (s : PaypalState) (r : PaypalRow) : List Entry × List ℤ :=
  if r.date ∈ s.txnDates then ([], s.txnDates)
  else (s.prevBalances.map (fun p => Entry.balance r.date PAYPAL_BAL p.2 p.1),
        s.txnDates ++ [r.date])

/-- One iteration of the PayPal `extract` loop over a parsed row. -/
def paypalStep (cb : ℤ) (s : PaypalState) (r : PaypalRow) :
    Except String (List Entry × PaypalState) :=
  if r.status ∈ paypalValidStatuses then
    match r.amount with
    | none => .ok ([], s)  -- skip rows with no amount
    | some amt =>
      let sa1 := paypalSa1 s.srcAcc amt
      if lookupAssoc s.prevBalances r.currency = some r.balance then
        .ok ([], { s with srcAcc := sa1 })  -- ghost row: balance unchanged
      else if r.type ∈ paypalSkipTypes then
        .ok ([], { s with srcAcc := sa1 })
      else
        let sa2 := paypalSa2 r sa1
        -- source lines 205-209 choose a destination for General Withdrawal
        -- rows; line 219 then reassigns dst_acc unconditionally, so the
        -- choice below is dead and every row uses PAYPAL_BAL
        let _dstWithdrawal : String :=
          if r.type = "General Withdrawal" then
            if r.date < cb then "Equity:Earnings:Previous" else PAYPAL_TRANS
          else PAYPAL_BAL
        let dst_acc := PAYPAL_BAL
        match paypalPostings s.firstConv r amt dst_acc sa2 (paypalFlag r) with
        | .error e => .error e
        | .ok (txnEntries, fc2) =>
          let db := paypalBalBlock s r
          .ok (txnEntries ++ db.1,
               ⟨db.2, insertAssoc s.prevBalances r.currency r.balance, fc2, sa2⟩)
  else
    -- `TxnStatus(row[STAT])` raises ValueError on any other status string
    .error ("ValueError: " ++ r.status ++ " is not a valid TxnStatus")

/-- Fold a step function over the rows of a file, concatenating emitted
entries; any error aborts the whole run with no output. -/
def runSteps {σ ρ : Type} (f : σ → ρ → Except String (List Entry × σ)) :
    σ → List ρ → Except String (List Entry × σ)
  | s, [] => .ok ([], s)
  | s, r :: rs =>
    match f s r with
    | .error e => .error e
    | .ok (es, s') =>
      match runSteps f s' rs with
      | .error e => .error e
      | .ok (es2, s'') => .ok (es ++ es2, s'')

/-- Open and pad directives that the PayPal `extract` emits first. -/
def paypalOpenEntries (currencies : List String) (openDate : ℤ) (pad : Bool) :
    List Entry :=
  let pre := open_account PAYPAL_BAL openDate currencies ::
    open_accounts [PAYPAL_HELD, PAYPAL_DON, PAYPAL_TRANS] openDate currencies
  -- the source appends the pad via `entries += pad_entry`, which extends the
  -- list with the namedtuple fields; no claim depends on the pad entry, so
  -- it is modelled as a single Pad directive here
  if pad then pre ++ [pad_account PAYPAL_BAL openDate] else pre

/-- PayPal `extract`: open directives, optional pad, then the row loop.
`dates` is the content of `self.txn_dates` when the call starts; the
returned list is its content when the call ends. -/
def paypalExtract (cb : ℤ) (currencies : List String) (openDate : ℤ)
    (pad : Bool) (dates : List ℤ) (rows : List PaypalRow) :
    Except String (List Entry × List ℤ) :=
  match runSteps (paypalStep cb) ⟨dates, [], none, none⟩ rows with
  | .error e => .error e
  | .ok (es, s) => .ok (paypalOpenEntries currencies openDate pad ++ es, s.txnDates)

/-! Upwork importer (source: upwork_csv.py). -/

/-- Upwork balance account (`Account.BAL`). -/
def UPWORK_BAL : String := "Assets:Upwork:Balance"

/-- Upwork fixed-price income account (`Account.FP`). -/
def UPWORK_FP : String := "Income:Upwork:FixedPrice"

/-- Upwork bonus income account (`Account.BON`). -/
def UPWORK_BON : String := "Income:Upwork:Bonus"

/-- Upwork hourly income account (`Account.HR`). -/
def UPWORK_HR : String := "Income:Upwork:Hourly"

/-- Upwork miscellaneous income account (`Account.MISC`). -/
def UPWORK_MISC : String := "Income:Upwork:Miscellaneous"

/-- Upwork service-fee expense account (`Account.SF`). -/
def UPWORK_SF : String := "Expenses:Upwork:ServiceFee"

/-- Upwork refund expense account (`Account.REF`). -/
def UPWORK_REF : String := "Expenses:Upwork:Refund"

/-- The members of the Upwork `TxnType` enum. -/
def upworkTypes : List String :=
  ["Withdrawal", "Fixed Price", "Bonus", "Hourly", "Refund",
   "Service Fee", "Miscellaneous"]

/-- In-transit account name from the last four digits of the destination
account number (source: upwork_in_transit_account_name; the stem is
`IN_TRANSIT_ACCOUNT_PREFIX`). -/
def upwork_in_transit_account_name (lastFour : String) : String :=
  "Assets:InTransit:Upwork:Schwab-" ++ lastFour

/-- Beancount tag for an Upwork transaction type (source: txn_type_to_tag
with the `UpworkTxnTag` enum; the catch-all arm is unreachable for enum
members other than Miscellaneous). -/
def upworkTag : String → String
  | "Withdrawal" => "Upwork-Withdrawal"
  | "Fixed Price" => "Upwork-FixedPrice"
  | "Bonus" => "Upwork-Bonus"
  | "Hourly" => "Upwork-Hourly"
  | "Refund" => "Upwork-Refund"
  | "Service Fee" => "Upwork-ServiceFee"
  | _ => "Upwork-Miscellaneous"

/-- Match of the regular expression `: xxxx-([0-9]{4})` at the head of a
character list, returning the four digits. -/
def matchXXXX : List Char → Option (List Char)
  | ':' :: ' ' :: 'x' :: 'x' :: 'x' :: 'x' :: '-' :: d1 :: d2 :: d3 :: d4 :: _ =>
    if d1.isDigit && d2.isDigit && d3.isDigit && d4.isDigit then
      some [d1, d2, d3, d4]
    else none
  | _ => none

/-- Rightmost match of `: xxxx-([0-9]{4})` in a character list; the greedy
`.*` of the source pattern `.*: xxxx-([0-9]{4})` selects the rightmost
occurrence, and `re.match` always succeeds on the `.*` prefix. -/
def lastMatchXXXX : List Char → Option (List Char)
  | [] => none
  | c :: rest =>
    match lastMatchXXXX rest with
    | some found => some found
    | none => matchXXXX (c :: rest)

/-- Last four digits of the destination account from an Upwork withdrawal
description; raises ValueError when the pattern does not occur (source:
get_last_four_from_upwork_description, typo included). -/
def get_last_four_from_upwork_description (txn_desc : String) :
    Except String String :=
  match lastMatchXXXX txn_desc.toList with
  | some ds => .ok (String.mk ds)
  | none =>
    .error ("Could not extract acount number from Withdrawal description: "
      ++ txn_desc)

/-- Beancount account for an Upwork description via the caller-supplied
lookup table (source: get_account_from_upwork_description).  Defined by the
source but never called from `extract`, which formats the in-transit name
directly; a missing key is Python `KeyError`. -/
def get_account_from_upwork_description (txn_desc : String)
    (account_dict : List (String × String)) : Except String String :=
  match get_last_four_from_upwork_description txn_desc with
  | .error e => .error e
  | .ok lastFour =>
    match lookupAssoc account_dict lastFour with
    | some acc => .ok acc
    | none => .error ("KeyError: " ++ lastFour)

/-- One parsed Upwork CSV row (Date, Type, Description, Amount, Balance). -/
structure UpworkRow where
  date : ℤ
  type : String
  desc : String
  amount : ℚ
  balance : String
deriving DecidableEq

/-- Postings for one Upwork row (source lines 185-247): the `TxnType`
conversion raises on unknown types, then the elif chain picks the
counter-account; the withdrawal branch parses the description and formats
the in-transit account name, without consulting `bank_account_dict`. -/
def upworkPostings (r : UpworkRow) : Except String (List Posting) :=
  if r.type ∈ upworkTypes then
    if r.type = "Withdrawal" then
      match get_last_four_from_upwork_description r.desc with
      | .error e => .error e
      | .ok lastFour =>
        .ok (simple_posting_pair UPWORK_BAL
              (upwork_in_transit_account_name lastFour) r.amount USD)
    else if r.type = "Fixed Price" then
      .ok (simple_posting_pair UPWORK_BAL UPWORK_FP r.amount USD)
    else if r.type = "Bonus" then
      .ok (simple_posting_pair UPWORK_BAL UPWORK_BON r.amount USD)
    else if r.type = "Hourly" then
      .ok (simple_posting_pair UPWORK_BAL UPWORK_HR r.amount USD)
    else if r.type = "Refund" then
      .ok (simple_posting_pair UPWORK_BAL UPWORK_REF r.amount USD)
    else if r.type = "Service Fee" then
      .ok (simple_posting_pair UPWORK_BAL UPWORK_SF r.amount USD)
    else
      .ok (simple_posting_pair UPWORK_BAL UPWORK_MISC r.amount USD)
  else
    .error ("ValueError: " ++ r.type ++ " is not a valid TxnType")

/-- Transaction entry for one Upwork row. -/
def upworkCore (r : UpworkRow) : Except String Entry :=
  match upworkPostings r with
  | .error e => .error e
  | .ok ps => .ok (Entry.txn r.date FLAG_OKAY r.desc [upworkTag r.type] ps)

/-- Shared loop shape of the Upwork and Schwab importers: emit the row's
transaction, and on the first encounter of its date also emit one balance
assertion and record the date. -/
def stepWithBalance {ρ : Type} (core : ρ → Except String Entry)
    (mkBal : ρ → Entry) (dateOf : ρ → ℤ) (s : List ℤ) (r : ρ) :
    Except String (List Entry × List ℤ) :=
  match core r with
  | .error e => .error e
  | .ok t =>
    if dateOf r ∈ s then .ok ([t], s)
    else .ok ([t, mkBal r], s ++ [dateOf r])

/-- Balance assertion for an Upwork row: dated the following day (rows are
assumed reverse-chronological) with the row's own running balance. -/
def upworkBal (r : UpworkRow) : Entry :=
  Entry.balance (r.date + 1) UPWORK_BAL r.balance USD

/-- One iteration of the Upwork `extract` loop. -/
def upworkStep : List ℤ → UpworkRow → Except String (List Entry × List ℤ) :=
  stepWithBalance upworkCore upworkBal (fun r => r.date)

/-- Open directives that the Upwork `extract` emits first. -/
def upworkOpenEntries (bank_account_dict : List (String × String))
    (openDate : ℤ) : List Entry :=
  open_usd_accounts
    ([UPWORK_BAL, UPWORK_FP, UPWORK_BON, UPWORK_HR, UPWORK_MISC,
      UPWORK_SF, UPWORK_REF] ++
     bank_account_dict.map (fun p => upwork_in_transit_account_name p.1))
    openDate

/-- Upwork `extract`: open directives for the enum accounts and the
in-transit accounts derived from `bank_account_dict`, then the row loop. -/
def upworkExtract (bank_account_dict : List (String × String)) (openDate : ℤ)
    (dates : List ℤ) (rows : List UpworkRow) :
    Except String (List Entry × List ℤ) :=
  match runSteps upworkStep dates rows with
  | .error e => .error e
  | .ok (es, dates') =>
    .ok (upworkOpenEntries bank_account_dict openDate ++ es, dates')

/-! Schwab bank importer (source: schwab/bank_csv.py). -/

/-- The members of the Schwab `TxnType` enum. -/
def schwabTypes : List String :=
  ["ACH", "ATM", "ATMREBATE", "CHECK", "DEPOSIT", "INTADJUST",
   "TRANSFER", "VISA", "WIRE"]

/-- One parsed Schwab CSV row; `wdl`/`dep` are `none` for empty cells. -/
structure SchwabRow where
  date : ℤ
  type : String
  desc : String
  wdl : Option ℚ
  dep : Option ℚ
  balance : String
deriving DecidableEq

/-- Postings and flag for one Schwab row (source lines 205-267): unknown
types raise; exactly one of the withdrawal and deposit cells must be
present; the withdrawal branch reassigns `src_acc` to the file's account,
discarding any income-account override. -/
def schwabPostings (accountName atmRebateAcc interestAcc : String)
    (r : SchwabRow) : Except String (List Posting × String) :=
  if r.type ∈ schwabTypes then
    let src0 :=
      if r.type = "ATMREBATE" then atmRebateAcc
      else if r.type = "INTADJUST" then interestAcc
      else DEFAULT_INCOME_ACC
    let flag :=
      if r.type = "ATMREBATE" ∨ r.type = "INTADJUST" then FLAG_OKAY
      else FLAG_WARNING
    match r.wdl, r.dep with
    | some w, none =>
      .ok (simple_posting_pair DEFAULT_EXPENSE_ACC accountName w USD, flag)
    | none, some d =>
      .ok (simple_posting_pair accountName src0 d USD, flag)
    | _, _ =>
      .error "ValueError: Expected exactly one of Withdrawal and Deposit"
  else
    .error ("Unknown transaction type: " ++ r.type)

/-- Transaction entry for one Schwab row. -/
def schwabCore (accountName atmRebateAcc interestAcc : String)
    (r : SchwabRow) : Except String Entry :=
  match schwabPostings accountName atmRebateAcc interestAcc r with
  | .error e => .error e
  | .ok (ps, flag) => .ok (Entry.txn r.date flag r.desc [] ps)

/-- Balance assertion for a Schwab row: dated the following day with the
row's own running balance. -/
def schwabBal (accountName : String) (r : SchwabRow) : Entry :=
  Entry.balance (r.date + 1) accountName r.balance USD

/-- One iteration of the Schwab `extract` loop. -/
def schwabStep (accountName atmRebateAcc interestAcc : String) :
    List ℤ → SchwabRow → Except String (List Entry × List ℤ) :=
  stepWithBalance (schwabCore accountName atmRebateAcc interestAcc)
    (schwabBal accountName) (fun r => r.date)

/-- Open and pad directives that the Schwab `extract` emits first. -/
def schwabOpenEntries (accountName atmRebateAcc interestAcc : String)
    (openDate : ℤ) : List Entry :=
  open_usd_accounts [accountName, atmRebateAcc, interestAcc] openDate
    ++ [pad_account accountName openDate]

/-- Schwab `extract`: the account names are derived from the filename
suffix (filename parsing itself is out of scope); open directives, a pad,
then the row loop. -/
def schwabExtract (accountStem accountSuffix : String) (openDate : ℤ)
    (dates : List ℤ) (rows : List SchwabRow) :
    Except String (List Entry × List ℤ) :=
  let accountName := accountStem ++ ":" ++ accountSuffix
  let atmRebateAcc := "Income:Schwab:AtmRebate:" ++ accountSuffix
  let interestAcc := "Income:Schwab:Interest:" ++ accountSuffix
  match runSteps (schwabStep accountName atmRebateAcc interestAcc) dates rows with
  | .error e => .error e
  | .ok (es, dates') =>
    .ok (schwabOpenEntries accountName atmRebateAcc interestAcc openDate ++ es,
         dates')

/-! Helpers for stating the claims. -/

/-- Whether an entry is a transaction. -/
def isTxnB : Entry → Bool
  | .txn .. => true
  | _ => false

/-- Whether an entry is a balance assertion. -/
def isBalanceB : Entry → Bool
  | .balance .. => true
  | _ => false

/-- The transactions among a list of entries. -/
def txnsOf (es : List Entry) : List Entry := es.filter isTxnB

/-- The balance assertions among a list of entries. -/
def balancesOf (es : List Entry) : List Entry := es.filter isBalanceB

/-- The (date, account, currency) keys of the balance assertions in a list
of entries. -/
def balKeys (es : List Entry) : List (ℤ × String × String) :=
  es.filterMap (fun e =>
    match e with
    | .balance d a _ c => some (d, a, c)
    | _ => none)

/-- The entries of a successful extract result, and nothing of a failed
one: a raising `extract` returns no partial output. -/
def entriesOf (res : Except String (List Entry × List ℤ)) : List Entry :=
  match res with
  | .ok p => p.1
  | .error _ => []

/-- Whether an extract result is a success. -/
def isOkB {α : Type} (res : Except String α) : Bool :=
  match res with
  | .ok _ => true
  | .error _ => false

/-- Well-formedness of an emitted transaction, as amended: exactly two
postings; a non-conversion transaction's postings share a currency and sum
to zero; a conversion transaction's second posting carries the rounded
price in the first posting's currency, with a nonzero second amount. -/
def txnWellFormed : Entry → Bool
  | .txn _ _ _ tags ps =>
    match ps with
    | [p1, p2] =>
      if tags.contains "currency-conversion" then
        decide (p2.price =
          some ⟨sigRound5 (-p1.units.number / p2.units.number),
                p1.units.currency⟩) &&
        decide (p2.units.number ≠ 0)
      else
        decide (p1.units.currency = p2.units.currency) &&
        decide (p1.units.number + p2.units.number = 0)
    | _ => false
  | _ => true

/-! Basic lemmas about the entry classifiers and list helpers. -/

@[simp] lemma isTxnB_openAcc (d : ℤ) (a : String) (cs : List String) :
    isTxnB (.openAcc d a cs) = false := rfl

@[simp] lemma isTxnB_pad (d : ℤ) (a b : String) :
    isTxnB (.pad d a b) = false := rfl

@[simp] lemma isTxnB_txn (d : ℤ) (f n : String) (tg : List String)
    (ps : List Posting) : isTxnB (.txn d f n tg ps) = true := rfl

@[simp] lemma isTxnB_balance (d : ℤ) (a b c : String) :
    isTxnB (.balance d a b c) = false := rfl

@[simp] lemma isBalanceB_openAcc (d : ℤ) (a : String) (cs : List String) :
    isBalanceB (.openAcc d a cs) = false := rfl

@[simp] lemma isBalanceB_pad (d : ℤ) (a b : String) :
    isBalanceB (.pad d a b) = false := rfl

@[simp] lemma isBalanceB_txn (d : ℤ) (f n : String) (tg : List String)
    (ps : List Posting) : isBalanceB (.txn d f n tg ps) = false := rfl

@[simp] lemma isBalanceB_balance (d : ℤ) (a b c : String) :
    isBalanceB (.balance d a b c) = true := rfl

@[simp] lemma txnsOf_nil : txnsOf [] = [] := rfl

@[simp] lemma txnsOf_cons (e : Entry) (es : List Entry) :
    txnsOf (e :: es) = if isTxnB e then e :: txnsOf es else txnsOf es := by
  simp [txnsOf, List.filter_cons]

@[simp] lemma txnsOf_append (es fs : List Entry) :
    txnsOf (es ++ fs) = txnsOf es ++ txnsOf fs := by
  simp [txnsOf, List.filter_append]

@[simp] lemma balancesOf_nil : balancesOf [] = [] := rfl

@[simp] lemma balancesOf_cons (e : Entry) (es : List Entry) :
    balancesOf (e :: es) =
      if isBalanceB e then e :: balancesOf es else balancesOf es := by
  simp [balancesOf, List.filter_cons]

@[simp] lemma balancesOf_append (es fs : List Entry) :
    balancesOf (es ++ fs) = balancesOf es ++ balancesOf fs := by
  simp [balancesOf, List.filter_append]

@[simp] lemma balKeys_nil : balKeys [] = [] := rfl

@[simp] lemma balKeys_append (es fs : List Entry) :
    balKeys (es ++ fs) = balKeys es ++ balKeys fs := by
  simp [balKeys, List.filterMap_append]

@[simp] lemma balKeys_openAcc_cons (d : ℤ) (a : String) (cs : List String)
    (es : List Entry) : balKeys (.openAcc d a cs :: es) = balKeys es := rfl

@[simp] lemma balKeys_pad_cons (d : ℤ) (a b : String) (es : List Entry) :
    balKeys (.pad d a b :: es) = balKeys es := rfl

@[simp] lemma balKeys_txn_cons (d : ℤ) (f n : String) (tg : List String)
    (ps : List Posting) (es : List Entry) :
    balKeys (.txn d f n tg ps :: es) = balKeys es := rfl

@[simp] lemma balKeys_balance_cons (d : ℤ) (a b c : String) (es : List Entry) :
    balKeys (.balance d a b c :: es) = (d, a, c) :: balKeys es := rfl

/-- The balance batch emitted by the PayPal balance block consists of
balance entries only; its keys are the map currencies keyed at one date. -/
lemma balKeys_balMap (d : ℤ) (acc : String) (m : List (String × String)) :
    balKeys (m.map fun p => Entry.balance d acc p.2 p.1) =
      m.map fun p => (d, acc, p.1) := by
  induction m with
  | nil => rfl
  | cons p rest ih => simp [ih]

/-- The balance batch contains no transactions. -/
lemma txnsOf_balMap (d : ℤ) (acc : String) (m : List (String × String)) :
    txnsOf (m.map fun p => Entry.balance d acc p.2 p.1) = [] := by
  induction m with
  | nil => rfl
  | cons p rest ih => simp [ih]

/-- The balance batch is preserved by `balancesOf`. -/
lemma balancesOf_balMap (d : ℤ) (acc : String) (m : List (String × String)) :
    balancesOf (m.map fun p => Entry.balance d acc p.2 p.1) =
      m.map fun p => Entry.balance d acc p.2 p.1 := by
  induction m with
  | nil => rfl
  | cons p rest ih => simp [ih]

@[simp] lemma simple_posting_pos_units (a : String) (amt : ℚ) (c : String) :
    (simple_posting a amt false c).units = ⟨amt, c⟩ := rfl

@[simp] lemma simple_posting_neg_units (a : String) (amt : ℚ) (c : String) :
    (simple_posting a amt true c).units = ⟨-amt, c⟩ := rfl

/-! Generic lemmas about `runSteps`. -/

/-- Inversion of a successful run on the empty row list. -/
lemma runSteps_nil_ok {σ ρ : Type} (f : σ → ρ → Except String (List Entry × σ))
    (s : σ) (es : List Entry) (s' : σ) :
    runSteps f s [] = .ok (es, s') ↔ es = [] ∧ s' = s := by
  unfold runSteps
  constructor
  · intro h
    injection h with h
    injection h with h1 h2
    exact ⟨h1.symm, h2.symm⟩
  · rintro ⟨rfl, rfl⟩
    rfl

/-- Inversion of a successful run on a nonempty row list. -/
lemma runSteps_cons_ok {σ ρ : Type} (f : σ → ρ → Except String (List Entry × σ))
    (s : σ) (r : ρ) (rs : List ρ) (es : List Entry) (s'' : σ) :
    runSteps f s (r :: rs) = .ok (es, s'') ↔
    ∃ es1 s' es2, f s r = .ok (es1, s') ∧ runSteps f s' rs = .ok (es2, s'') ∧
      es = es1 ++ es2 := by
  rcases hfr : f s r with e | ⟨es1, s1⟩
  · simp [runSteps, hfr]
  · rcases hrun : runSteps f s1 rs with e | ⟨es2, s2⟩
    · simp [runSteps, hfr, hrun]
    · simp only [runSteps, hfr, hrun]
      constructor
      · intro h
        injection h with h
        injection h with h1 h2
        exact ⟨es1, s1, es2, rfl, by rw [hrun, h2], h1.symm⟩
      · rintro ⟨es1x, s1x, es2x, h1, h2, rfl⟩
        injection h1 with h1
        injection h1 with ha hb
        subst ha; subst hb
        rw [hrun] at h2
        injection h2 with h2
        injection h2 with hc hd
        rw [hc, hd]

/-- A property of rows forced by every successful step holds for every row
of a successful run. -/
lemma runSteps_rowProp {σ ρ : Type} (f : σ → ρ → Except String (List Entry × σ))
    (Q : ρ → Prop)
    (hstep : ∀ s r es s', f s r = .ok (es, s') → Q r) :
    ∀ (rows : List ρ) (s : σ) es s',
      runSteps f s rows = .ok (es, s') → ∀ r ∈ rows, Q r := by
  intro rows
  induction rows with
  | nil => intro s es s' _ r hr; exact absurd hr (by simp)
  | cons r rs ih =>
    intro s es s' h r' hr'
    rcases (runSteps_cons_ok f s r rs es s').mp h with ⟨es1, s1, es2, h1, h2, rfl⟩
    rcases List.mem_cons.mp hr' with rfl | hmem
    · exact hstep s r' es1 s1 h1
    · exact ih s1 es2 s' h2 r' hmem

/-- A Boolean entry property forced by every successful step holds for all
entries of a successful run. -/
lemma runSteps_allEntries {σ ρ : Type}
    (f : σ → ρ → Except String (List Entry × σ)) (p : Entry → Bool)
    (hstep : ∀ s r es s', f s r = .ok (es, s') → es.all p = true) :
    ∀ (rows : List ρ) (s : σ) es s',
      runSteps f s rows = .ok (es, s') → es.all p = true := by
  intro rows
  induction rows with
  | nil =>
    intro s es s' h
    obtain ⟨rfl, rfl⟩ := (runSteps_nil_ok f s es s').mp h
    rfl
  | cons r rs ih =>
    intro s es s' h
    rcases (runSteps_cons_ok f s r rs es s').mp h with ⟨es1, s1, es2, h1, h2, rfl⟩
    rw [List.all_append, hstep s r es1 s1 h1, ih s1 es2 s' h2]
    rfl

/-- Monotonicity of an ℤ-list projection of the state along a run. -/
lemma runSteps_mono {σ ρ : Type} (f : σ → ρ → Except String (List Entry × σ))
    (ds : σ → List ℤ)
    (hstep : ∀ s r es s', f s r = .ok (es, s') → ∀ d ∈ ds s, d ∈ ds s') :
    ∀ (rows : List ρ) (s : σ) es s',
      runSteps f s rows = .ok (es, s') → ∀ d ∈ ds s, d ∈ ds s' := by
  intro rows
  induction rows with
  | nil =>
    intro s es s' h
    obtain ⟨rfl, rfl⟩ := (runSteps_nil_ok f s es s').mp h
    exact fun d hd => hd
  | cons r rs ih =>
    intro s es s' h d hd
    rcases (runSteps_cons_ok f s r rs es s').mp h with ⟨es1, s1, es2, h1, h2, rfl⟩
    exact ih s1 es2 s' h2 d (hstep s r es1 s1 h1 d hd)

/-- Pairwise distinctness of balance-assertion keys along a run, from a
step-level invariant: each step's batch is keyed at dates newly added to
the state projection and is itself duplicate-free. -/
lemma runSteps_balKeys_pairwise {σ ρ : Type}
    (f : σ → ρ → Except String (List Entry × σ)) (I : σ → Prop)
    (ds : σ → List ℤ)
    (hstep : ∀ s r es s', I s → f s r = .ok (es, s') →
      I s' ∧ (∀ d ∈ ds s, d ∈ ds s') ∧
      (∀ k ∈ balKeys es, k.1 ∈ ds s' ∧ k.1 ∉ ds s) ∧
      (balKeys es).Pairwise (fun a b => a ≠ b)) :
    ∀ (rows : List ρ) (s : σ) es s', I s →
      runSteps f s rows = .ok (es, s') →
      I s' ∧ (∀ d ∈ ds s, d ∈ ds s') ∧
      (∀ k ∈ balKeys es, k.1 ∈ ds s' ∧ k.1 ∉ ds s) ∧
      (balKeys es).Pairwise (fun a b => a ≠ b) := by
  intro rows
  induction rows with
  | nil =>
    intro s es s' hI h
    obtain ⟨rfl, rfl⟩ := (runSteps_nil_ok f s es s').mp h
    exact ⟨hI, fun d hd => hd, by simp, by simp⟩
  | cons r rs ih =>
    intro s es s' hI h
    rcases (runSteps_cons_ok f s r rs es s').mp h with ⟨es1, s1, es2, h1, h2, rfl⟩
    obtain ⟨hI1, hmono1, hkeys1, hpw1⟩ := hstep s r es1 s1 hI h1
    obtain ⟨hI2, hmono2, hkeys2, hpw2⟩ := ih s1 es2 s' hI1 h2
    refine ⟨hI2, fun d hd => hmono2 d (hmono1 d hd), ?_, ?_⟩
    · intro k hk
      rw [balKeys_append, List.mem_append] at hk
      rcases hk with hk | hk
      · exact ⟨hmono2 k.1 (hkeys1 k hk).1, (hkeys1 k hk).2⟩
      · exact ⟨(hkeys2 k hk).1, fun hmem => (hkeys2 k hk).2 (hmono1 k.1 hmem)⟩
    · rw [balKeys_append, List.pairwise_append]
      refine ⟨hpw1, hpw2, fun a ha b hb heq => ?_⟩
      have h1a : a.1 ∈ ds s1 := (hkeys1 a ha).1
      have h2b : b.1 ∉ ds s1 := (hkeys2 b hb).2
      rw [heq] at h1a
      exact h2b h1a

/-! Step-level inversion and computation lemmas. -/

@[simp] lemma simple_posting_pos_number (a : String) (amt : ℚ) (c : String) :
    (simple_posting a amt false c).units.number = amt := rfl

/-- Computation: the shared loop body on an already-seen date. -/
lemma stepWithBalance_build_mem {ρ : Type} (core : ρ → Except String Entry)
    (mkBal : ρ → Entry) (dateOf : ρ → ℤ) (s : List ℤ) (r : ρ) (t : Entry)
    (hc : core r = .ok t) (hd : dateOf r ∈ s) :
    stepWithBalance core mkBal dateOf s r = .ok ([t], s) := by
  unfold stepWithBalance
  simp only [hc]
  rw [if_pos hd]

/-- Computation: the shared loop body on a new date. -/
lemma stepWithBalance_build_new {ρ : Type} (core : ρ → Except String Entry)
    (mkBal : ρ → Entry) (dateOf : ρ → ℤ) (s : List ℤ) (r : ρ) (t : Entry)
    (hc : core r = .ok t) (hd : dateOf r ∉ s) :
    stepWithBalance core mkBal dateOf s r =
      .ok ([t, mkBal r], s ++ [dateOf r]) := by
  unfold stepWithBalance
  simp only [hc]
  rw [if_neg hd]

/-- Inversion of the shared Upwork/Schwab loop body. -/
lemma stepWithBalance_ok_inv {ρ : Type} (core : ρ → Except String Entry)
    (mkBal : ρ → Entry) (dateOf : ρ → ℤ) (s : List ℤ) (r : ρ)
    (es : List Entry) (s' : List ℤ)
    (h : stepWithBalance core mkBal dateOf s r = .ok (es, s')) :
    ∃ t, core r = .ok t ∧
      ((dateOf r ∈ s ∧ es = [t] ∧ s' = s) ∨
       (dateOf r ∉ s ∧ es = [t, mkBal r] ∧ s' = s ++ [dateOf r])) := by
  rcases hc : core r with e | t
  · unfold stepWithBalance at h
    rw [hc] at h
    simp at h
  · by_cases hd : dateOf r ∈ s
    · rw [stepWithBalance_build_mem core mkBal dateOf s r t hc hd] at h
      simp only [Except.ok.injEq, Prod.mk.injEq] at h
      exact ⟨t, rfl, Or.inl ⟨hd, h.1.symm, h.2.symm⟩⟩
    · rw [stepWithBalance_build_new core mkBal dateOf s r t hc hd] at h
      simp only [Except.ok.injEq, Prod.mk.injEq] at h
      exact ⟨t, rfl, Or.inr ⟨hd, h.1.symm, h.2.symm⟩⟩

/-- Computation: buffering the first conversion leg. -/
lemma paypalPostings_build_first (fc0 : Option Posting) (r : PaypalRow) (amt : ℚ)
    (dst : String) (sa : Option String) (flag : String)
    (ht : r.type = "General Currency Conversion") (hfc : fc0 = none) :
    paypalPostings fc0 r amt dst sa flag =
      .ok ([], some (simple_posting PAYPAL_BAL amt false r.currency)) := by
  unfold paypalPostings
  rw [if_pos ht, hfc]

/-- Computation: emitting the combined conversion transaction. -/
lemma paypalPostings_build_pair (fc0 : Option Posting) (r : PaypalRow) (amt : ℚ)
    (dst : String) (sa : Option String) (flag : String) (p1 : Posting)
    (ht : r.type = "General Currency Conversion")
    (hfc : fc0 = some p1) (h0 : amt ≠ 0) :
    paypalPostings fc0 r amt dst sa flag =
      .ok ([Entry.txn r.date FLAG_OKAY (paypalDesc r)
              ["paypal", "currency-conversion"]
              [p1, pricedSecond p1 amt r.currency]],
           some p1) := by
  unfold paypalPostings
  rw [if_pos ht, hfc]
  simp only [simple_posting_pos_number]
  rw [if_neg h0]

/-- Computation: the error on a zero second conversion amount. -/
lemma paypalPostings_build_zero (fc0 : Option Posting) (r : PaypalRow)
    (dst : String) (sa : Option String) (flag : String) (p1 : Posting)
    (ht : r.type = "General Currency Conversion")
    (hfc : fc0 = some p1) :
    paypalPostings fc0 r 0 dst sa flag = .error "DivisionByZero: x / 0" := by
  unfold paypalPostings
  rw [if_pos ht, hfc]
  simp

/-- Computation: the ordinary posting-pair branch. -/
lemma paypalPostings_build_simple (fc0 : Option Posting) (r : PaypalRow) (amt : ℚ)
    (dst : String) (src : String) (flag : String)
    (ht : r.type ≠ "General Currency Conversion") :
    paypalPostings fc0 r amt dst (some src) flag =
      .ok ([Entry.txn r.date flag (paypalDesc r) ["paypal"]
              (simple_posting_pair dst src amt r.currency)],
           none) := by
  unfold paypalPostings
  rw [if_neg ht]

/-- Inversion of the PayPal posting construction. -/
lemma paypalPostings_ok_inv (fc0 : Option Posting) (r : PaypalRow) (amt : ℚ)
    (dst : String) (sa : Option String) (flag : String) (es : List Entry)
    (fc : Option Posting)
    (h : paypalPostings fc0 r amt dst sa flag = .ok (es, fc)) :
    ((r.type = "General Currency Conversion" ∧ fc0 = none ∧
        es = [] ∧ fc = some (simple_posting PAYPAL_BAL amt false r.currency)) ∨
     (∃ p1, r.type = "General Currency Conversion" ∧ fc0 = some p1 ∧
        amt ≠ 0 ∧
        es = [Entry.txn r.date FLAG_OKAY (paypalDesc r)
                ["paypal", "currency-conversion"]
                [p1, pricedSecond p1 amt r.currency]] ∧ fc = some p1) ∨
     (∃ src, r.type ≠ "General Currency Conversion" ∧ sa = some src ∧
        es = [Entry.txn r.date flag (paypalDesc r) ["paypal"]
                (simple_posting_pair dst src amt r.currency)] ∧ fc = none)) := by
  by_cases ht : r.type = "General Currency Conversion"
  · rcases hfc : fc0 with _ | p1
    · rw [hfc] at h
      rw [paypalPostings_build_first none r amt dst sa flag ht rfl] at h
      simp only [Except.ok.injEq, Prod.mk.injEq] at h
      exact Or.inl ⟨ht, rfl, h.1.symm, h.2.symm⟩
    · by_cases h0 : amt = 0
      · subst h0
        rw [hfc] at h
        rw [paypalPostings_build_zero (some p1) r dst sa flag p1 ht rfl] at h
        simp at h
      · rw [hfc] at h
        rw [paypalPostings_build_pair (some p1) r amt dst sa flag p1 ht rfl h0] at h
        simp only [Except.ok.injEq, Prod.mk.injEq] at h
        exact Or.inr (Or.inl ⟨p1, ht, rfl, h0, h.1.symm, h.2.symm⟩)
  · rcases hsa : sa with _ | src
    · rw [hsa] at h
      unfold paypalPostings at h
      rw [if_neg ht] at h
      simp at h
    · rw [hsa] at h
      rw [paypalPostings_build_simple fc0 r amt dst src flag ht] at h
      simp only [Except.ok.injEq, Prod.mk.injEq] at h
      exact Or.inr (Or.inr ⟨src, ht, rfl, h.1.symm, h.2.symm⟩)

/-- Computation: a PayPal row with an empty amount is skipped. -/
lemma paypalStep_build_empty (cb : ℤ) (s : PaypalState) (r : PaypalRow)
    (hst : r.status ∈ paypalValidStatuses) (ha : r.amount = none) :
    paypalStep cb s r = .ok ([], s) := by
  unfold paypalStep
  rw [if_pos hst]
  simp only [ha]

/-- Computation: a ghost PayPal row is skipped, updating only the Python
local `src_acc`. -/
lemma paypalStep_build_ghost (cb : ℤ) (s : PaypalState) (r : PaypalRow)
    (amt : ℚ) (hst : r.status ∈ paypalValidStatuses) (ha : r.amount = some amt)
    (hg : lookupAssoc s.prevBalances r.currency = some r.balance) :
    paypalStep cb s r = .ok ([], { s with srcAcc := paypalSa1 s.srcAcc amt }) := by
  unfold paypalStep
  rw [if_pos hst]
  simp only [ha]
  rw [if_pos hg]

/-- Computation: a skip-type PayPal row is skipped. -/
lemma paypalStep_build_skip (cb : ℤ) (s : PaypalState) (r : PaypalRow)
    (amt : ℚ) (hst : r.status ∈ paypalValidStatuses) (ha : r.amount = some amt)
    (hg : lookupAssoc s.prevBalances r.currency ≠ some r.balance)
    (hsk : r.type ∈ paypalSkipTypes) :
    paypalStep cb s r = .ok ([], { s with srcAcc := paypalSa1 s.srcAcc amt }) := by
  unfold paypalStep
  rw [if_pos hst]
  simp only [ha]
  rw [if_neg hg, if_pos hsk]

/-- Computation: a processed PayPal row runs the posting construction and
the balance block. -/
lemma paypalStep_build_main (cb : ℤ) (s : PaypalState) (r : PaypalRow)
    (amt : ℚ) (txnEntries : List Entry) (fc2 : Option Posting)
    (hst : r.status ∈ paypalValidStatuses) (ha : r.amount = some amt)
    (hg : lookupAssoc s.prevBalances r.currency ≠ some r.balance)
    (hsk : r.type ∉ paypalSkipTypes)
    (hpp : paypalPostings s.firstConv r amt PAYPAL_BAL (paypalSa2 r (paypalSa1 s.srcAcc amt))
      (paypalFlag r) = .ok (txnEntries, fc2)) :
    paypalStep cb s r =
      .ok (txnEntries ++ (paypalBalBlock s r).1,
           ⟨(paypalBalBlock s r).2,
            insertAssoc s.prevBalances r.currency r.balance, fc2,
            paypalSa2 r (paypalSa1 s.srcAcc amt)⟩) := by
  unfold paypalStep
  rw [if_pos hst]
  simp only [ha]
  rw [if_neg hg, if_neg hsk]
  simp only [hpp]

/-- Computation: a failing posting construction aborts the run. -/
lemma paypalStep_build_mainErr (cb : ℤ) (s : PaypalState) (r : PaypalRow)
    (amt : ℚ) (e : String)
    (hst : r.status ∈ paypalValidStatuses) (ha : r.amount = some amt)
    (hg : lookupAssoc s.prevBalances r.currency ≠ some r.balance)
    (hsk : r.type ∉ paypalSkipTypes)
    (hpp : paypalPostings s.firstConv r amt PAYPAL_BAL (paypalSa2 r (paypalSa1 s.srcAcc amt))
      (paypalFlag r) = .error e) :
    paypalStep cb s r = .error e := by
  unfold paypalStep
  rw [if_pos hst]
  simp only [ha]
  rw [if_neg hg, if_neg hsk]
  simp only [hpp]

/-- Inversion of one PayPal loop iteration. -/
lemma paypalStep_ok_inv (cb : ℤ) (s : PaypalState) (r : PaypalRow)
    (es : List Entry) (s' : PaypalState)
    (h : paypalStep cb s r = .ok (es, s')) :
    r.status ∈ paypalValidStatuses ∧
    ((r.amount = none ∧ es = [] ∧ s' = s) ∨
     (∃ amt, r.amount = some amt ∧
       ((lookupAssoc s.prevBalances r.currency = some r.balance ∧
           es = [] ∧ s' = { s with srcAcc := paypalSa1 s.srcAcc amt }) ∨
        (lookupAssoc s.prevBalances r.currency ≠ some r.balance ∧
           r.type ∈ paypalSkipTypes ∧ es = [] ∧
           s' = { s with srcAcc := paypalSa1 s.srcAcc amt }) ∨
        (∃ txnEntries fc2,
           lookupAssoc s.prevBalances r.currency ≠ some r.balance ∧
           r.type ∉ paypalSkipTypes ∧
           paypalPostings s.firstConv r amt PAYPAL_BAL (paypalSa2 r (paypalSa1 s.srcAcc amt))
             (paypalFlag r) = .ok (txnEntries, fc2) ∧
           es = txnEntries ++ (paypalBalBlock s r).1 ∧
           s' = ⟨(paypalBalBlock s r).2,
                 insertAssoc s.prevBalances r.currency r.balance, fc2,
                 paypalSa2 r (paypalSa1 s.srcAcc amt)⟩)))) := by
  by_cases hst : r.status ∈ paypalValidStatuses
  · refine ⟨hst, ?_⟩
    rcases ha : r.amount with _ | amt
    · rw [paypalStep_build_empty cb s r hst ha] at h
      simp only [Except.ok.injEq, Prod.mk.injEq] at h
      exact Or.inl ⟨rfl, h.1.symm, h.2.symm⟩
    · by_cases hg : lookupAssoc s.prevBalances r.currency = some r.balance
      · rw [paypalStep_build_ghost cb s r amt hst ha hg] at h
        simp only [Except.ok.injEq, Prod.mk.injEq] at h
        exact Or.inr ⟨amt, rfl, Or.inl ⟨hg, h.1.symm, h.2.symm⟩⟩
      · by_cases hsk : r.type ∈ paypalSkipTypes
        · rw [paypalStep_build_skip cb s r amt hst ha hg hsk] at h
          simp only [Except.ok.injEq, Prod.mk.injEq] at h
          exact Or.inr ⟨amt, rfl, Or.inr (Or.inl ⟨hg, hsk, h.1.symm, h.2.symm⟩)⟩
        · rcases hpp : paypalPostings s.firstConv r amt PAYPAL_BAL
            (paypalSa2 r (paypalSa1 s.srcAcc amt)) (paypalFlag r) with e | ⟨txnEntries, fc2⟩
          · rw [paypalStep_build_mainErr cb s r amt e hst ha hg hsk hpp] at h
            simp at h
          · rw [paypalStep_build_main cb s r amt txnEntries fc2 hst ha hg hsk hpp] at h
            simp only [Except.ok.injEq, Prod.mk.injEq] at h
            exact Or.inr ⟨amt, rfl, Or.inr (Or.inr
              ⟨txnEntries, fc2, hg, hsk, hpp, h.1.symm, h.2.symm⟩)⟩
  · unfold paypalStep at h
    rw [if_neg hst] at h
    simp at h

/-! Upwork and Schwab core lemmas. -/

/-- Computation: a failing core aborts the shared loop body. -/
lemma stepWithBalance_build_err {ρ : Type} (core : ρ → Except String Entry)
    (mkBal : ρ → Entry) (dateOf : ρ → ℤ) (s : List ℤ) (r : ρ) (e : String)
    (hc : core r = .error e) :
    stepWithBalance core mkBal dateOf s r = .error e := by
  unfold stepWithBalance
  simp only [hc]

/-- Computation: the Upwork transaction entry from its postings. -/
lemma upworkCore_build_ok (r : UpworkRow) (ps : List Posting)
    (hp : upworkPostings r = .ok ps) :
    upworkCore r = .ok (Entry.txn r.date FLAG_OKAY r.desc [upworkTag r.type] ps) := by
  unfold upworkCore
  simp only [hp]

/-- Computation: a failing Upwork posting construction. -/
lemma upworkCore_build_err (r : UpworkRow) (e : String)
    (hp : upworkPostings r = .error e) :
    upworkCore r = .error e := by
  unfold upworkCore
  simp only [hp]

/-- A successful Upwork transaction entry has the row's shape. -/
lemma upworkCore_ok_inv (r : UpworkRow) (t : Entry)
    (h : upworkCore r = .ok t) :
    ∃ ps, upworkPostings r = .ok ps ∧
      t = Entry.txn r.date FLAG_OKAY r.desc [upworkTag r.type] ps := by
  rcases hp : upworkPostings r with e | ps
  · rw [upworkCore_build_err r e hp] at h
    simp at h
  · rw [upworkCore_build_ok r ps hp] at h
    injection h with h
    exact ⟨ps, rfl, h.symm⟩

/-- A successful Upwork posting construction forces a recognized type. -/
lemma upworkPostings_type_mem (r : UpworkRow) (ps : List Posting)
    (h : upworkPostings r = .ok ps) : r.type ∈ upworkTypes := by
  by_cases hm : r.type ∈ upworkTypes
  · exact hm
  · unfold upworkPostings at h
    rw [if_neg hm] at h
    simp at h

/-- Computation: the Schwab transaction entry from its postings. -/
lemma schwabCore_build_ok (an atm intr : String) (r : SchwabRow)
    (ps : List Posting) (flag : String)
    (hp : schwabPostings an atm intr r = .ok (ps, flag)) :
    schwabCore an atm intr r = .ok (Entry.txn r.date flag r.desc [] ps) := by
  unfold schwabCore
  simp only [hp]

/-- Computation: a failing Schwab posting construction. -/
lemma schwabCore_build_err (an atm intr : String) (r : SchwabRow) (e : String)
    (hp : schwabPostings an atm intr r = .error e) :
    schwabCore an atm intr r = .error e := by
  unfold schwabCore
  simp only [hp]

/-- A successful Schwab transaction entry has the row's shape. -/
lemma schwabCore_ok_inv (an atm intr : String) (r : SchwabRow) (t : Entry)
    (h : schwabCore an atm intr r = .ok t) :
    ∃ ps flag, schwabPostings an atm intr r = .ok (ps, flag) ∧
      t = Entry.txn r.date flag r.desc [] ps := by
  rcases hp : schwabPostings an atm intr r with e | ⟨ps, flag⟩
  · rw [schwabCore_build_err an atm intr r e hp] at h
    simp at h
  · rw [schwabCore_build_ok an atm intr r ps flag hp] at h
    injection h with h
    exact ⟨ps, flag, rfl, h.symm⟩

/-- A successful Schwab posting construction forces a recognized type. -/
lemma schwabPostings_type_mem (an atm intr : String) (r : SchwabRow)
    (ps : List Posting) (flag : String)
    (h : schwabPostings an atm intr r = .ok (ps, flag)) :
    r.type ∈ schwabTypes := by
  by_cases hm : r.type ∈ schwabTypes
  · exact hm
  · unfold schwabPostings at h
    rw [if_neg hm] at h
    simp at h

/-- A successful Schwab posting construction yields a debit/credit pair. -/
lemma schwabPostings_ok_inv (an atm intr : String) (r : SchwabRow)
    (ps : List Posting) (flag : String)
    (h : schwabPostings an atm intr r = .ok (ps, flag)) :
    ∃ dst src amt, ps = simple_posting_pair dst src amt USD := by
  unfold schwabPostings at h
  by_cases hm : r.type ∈ schwabTypes
  · rw [if_pos hm] at h
    rcases hw : r.wdl with _ | w <;> rcases hd : r.dep with _ | d <;>
      rw [hw, hd] at h <;> simp only [] at h
    · simp at h
    · simp only [Except.ok.injEq, Prod.mk.injEq] at h
      exact ⟨an, _, d, h.1.symm⟩
    · simp only [Except.ok.injEq, Prod.mk.injEq] at h
      exact ⟨DEFAULT_EXPENSE_ACC, an, w, h.1.symm⟩
    · simp at h
  · rw [if_neg hm] at h
    simp at h

/-! Association-list and balance-block lemmas. -/

/-- Keys of an association-list update: unchanged when the key is present,
extended by the key otherwise. -/
lemma insertAssoc_keys (m : List (String × String)) (k v : String) :
    (insertAssoc m k v).map Prod.fst =
      if k ∈ m.map Prod.fst then m.map Prod.fst else m.map Prod.fst ++ [k] := by
  induction m with
  | nil => simp [insertAssoc]
  | cons p rest ih =>
    by_cases hp : p.1 = k
    · simp [insertAssoc, hp]
    · have hk : (k ∈ p.1 :: rest.map Prod.fst) ↔ k ∈ rest.map Prod.fst := by
        constructor
        · intro hmem
          rcases List.mem_cons.mp hmem with heq | hmem
          · exact absurd heq.symm hp
          · exact hmem
        · exact fun hmem => List.mem_cons_of_mem _ hmem
      by_cases hm : k ∈ rest.map Prod.fst
      · simp [insertAssoc, hp, ih, hm, hk]
      · simp [insertAssoc, hp, ih, hm, hk]

/-- An association-list update preserves duplicate-free keys. -/
lemma insertAssoc_keys_nodup (m : List (String × String)) (k v : String)
    (h : (m.map Prod.fst).Nodup) :
    ((insertAssoc m k v).map Prod.fst).Nodup := by
  rw [insertAssoc_keys]
  by_cases hm : k ∈ m.map Prod.fst
  · rw [if_pos hm]
    exact h
  · rw [if_neg hm]
    refine List.Nodup.append h (List.nodup_singleton k) ?_
    intro a ha hb
    rw [List.mem_singleton] at hb
    subst hb
    exact hm ha

/-- Computation: the balance block on an already-seen date. -/
lemma paypalBalBlock_mem (s : PaypalState) (r : PaypalRow)
    (hd : r.date ∈ s.txnDates) :
    paypalBalBlock s r = ([], s.txnDates) := by
  unfold paypalBalBlock
  rw [if_pos hd]

/-- Computation: the balance block on a new date. -/
lemma paypalBalBlock_new (s : PaypalState) (r : PaypalRow)
    (hd : r.date ∉ s.txnDates) :
    paypalBalBlock s r =
      (s.prevBalances.map (fun p => Entry.balance r.date PAYPAL_BAL p.2 p.1),
       s.txnDates ++ [r.date]) := by
  unfold paypalBalBlock
  rw [if_neg hd]

/-- The transaction entries produced by the posting construction carry no
balance-assertion keys. -/
lemma paypalPostings_balKeys (fc0 : Option Posting) (r : PaypalRow) (amt : ℚ)
    (dst : String) (sa : Option String) (flag : String) (es : List Entry)
    (fc : Option Posting)
    (h : paypalPostings fc0 r amt dst sa flag = .ok (es, fc)) :
    balKeys es = [] := by
  rcases paypalPostings_ok_inv fc0 r amt dst sa flag es fc h with
    ⟨_, _, rfl, _⟩ | ⟨p1, _, _, _, rfl, _⟩ | ⟨src, _, _, rfl, _⟩ <;> simp

/-! Extract-level inversion and prefix lemmas. -/

/-- Inversion of a successful PayPal extract. -/
lemma paypalExtract_ok_inv (cb : ℤ) (currencies : List String) (openDate : ℤ)
    (pad : Bool) (dates : List ℤ) (rows : List PaypalRow) (out : List Entry)
    (dates' : List ℤ)
    (h : paypalExtract cb currencies openDate pad dates rows = .ok (out, dates')) :
    ∃ es s, runSteps (paypalStep cb) ⟨dates, [], none, none⟩ rows = .ok (es, s) ∧
      out = paypalOpenEntries currencies openDate pad ++ es ∧
      dates' = s.txnDates := by
  unfold paypalExtract at h
  rcases hrun : runSteps (paypalStep cb) ⟨dates, [], none, none⟩ rows with e | ⟨es, st⟩
  · rw [hrun] at h
    simp at h
  · rw [hrun] at h
    simp only [Except.ok.injEq, Prod.mk.injEq] at h
    exact ⟨es, st, rfl, h.1.symm, h.2.symm⟩

/-- Inversion of a successful Upwork extract. -/
lemma upworkExtract_ok_inv (dict : List (String × String)) (openDate : ℤ)
    (dates : List ℤ) (rows : List UpworkRow) (out : List Entry)
    (dates' : List ℤ)
    (h : upworkExtract dict openDate dates rows = .ok (out, dates')) :
    ∃ es, runSteps upworkStep dates rows = .ok (es, dates') ∧
      out = upworkOpenEntries dict openDate ++ es := by
  unfold upworkExtract at h
  rcases hrun : runSteps upworkStep dates rows with e | ⟨es, st⟩
  · rw [hrun] at h
    simp at h
  · rw [hrun] at h
    simp only [Except.ok.injEq, Prod.mk.injEq] at h
    exact ⟨es, by rw [h.2], h.1.symm⟩

/-- Inversion of a successful Schwab extract. -/
lemma schwabExtract_ok_inv (stem sfx : String) (openDate : ℤ)
    (dates : List ℤ) (rows : List SchwabRow) (out : List Entry)
    (dates' : List ℤ)
    (h : schwabExtract stem sfx openDate dates rows = .ok (out, dates')) :
    ∃ es, runSteps (schwabStep (stem ++ ":" ++ sfx)
        ("Income:Schwab:AtmRebate:" ++ sfx) ("Income:Schwab:Interest:" ++ sfx))
        dates rows = .ok (es, dates') ∧
      out = schwabOpenEntries (stem ++ ":" ++ sfx)
        ("Income:Schwab:AtmRebate:" ++ sfx) ("Income:Schwab:Interest:" ++ sfx)
        openDate ++ es := by
  unfold schwabExtract at h
  rcases hrun : runSteps (schwabStep (stem ++ ":" ++ sfx)
      ("Income:Schwab:AtmRebate:" ++ sfx) ("Income:Schwab:Interest:" ++ sfx))
      dates rows with e | ⟨es, st⟩
  · simp [hrun] at h
  · simp only [hrun] at h
    simp only [Except.ok.injEq, Prod.mk.injEq] at h
    exact ⟨es, by rw [h.2], h.1.symm⟩

@[simp] lemma txnWellFormed_openAcc (d : ℤ) (a : String) (cs : List String) :
    txnWellFormed (.openAcc d a cs) = true := rfl

@[simp] lemma txnWellFormed_pad (d : ℤ) (a b : String) :
    txnWellFormed (.pad d a b) = true := rfl

@[simp] lemma txnWellFormed_balance (d : ℤ) (a b c : String) :
    txnWellFormed (.balance d a b c) = true := rfl

/-- Open directives carry no balance keys. -/
lemma open_accounts_balKeys (l : List String) (od : ℤ) (c : List String) :
    balKeys (open_accounts l od c) = [] := by
  induction l with
  | nil => rfl
  | cons a rest ih => simpa [open_accounts, open_account] using ih

/-- Open directives contain no transactions. -/
lemma open_accounts_txnsOf (l : List String) (od : ℤ) (c : List String) :
    txnsOf (open_accounts l od c) = [] := by
  induction l with
  | nil => rfl
  | cons a rest ih => simpa [open_accounts, open_account] using ih

/-- Open directives are vacuously well-formed. -/
lemma open_accounts_all_wf (l : List String) (od : ℤ) (c : List String) :
    (open_accounts l od c).all txnWellFormed = true := by
  induction l with
  | nil => rfl
  | cons a rest ih => simp [open_accounts, open_account, ih]

/-- Open directives are not balance assertions. -/
lemma open_accounts_filter_nb (l : List String) (od : ℤ) (c : List String) :
    (open_accounts l od c).filter (fun e => !isBalanceB e) =
      open_accounts l od c := by
  induction l with
  | nil => rfl
  | cons a rest ih => simp [open_accounts, open_account, ih]

/-! Well-formedness of emitted transactions (machinery for the postings
invariant). -/

@[simp] lemma pricedSecond_units (p1 : Posting) (amt : ℚ) (cur : String) :
    (pricedSecond p1 amt cur).units = ⟨amt, cur⟩ := rfl

@[simp] lemma pricedSecond_price (p1 : Posting) (amt : ℚ) (cur : String) :
    (pricedSecond p1 amt cur).price =
      some ⟨sigRound5 (-p1.units.number / amt), p1.units.currency⟩ := rfl

@[simp] lemma pricedSecond_account (p1 : Posting) (amt : ℚ) (cur : String) :
    (pricedSecond p1 amt cur).account = PAYPAL_BAL := rfl

/-- A debit/credit pair transaction is well-formed whenever its tag list
does not carry the conversion tag. -/
lemma txnWellFormed_pair (d : ℤ) (flag n : String) (tags : List String)
    (dst src : String) (amt : ℚ) (cur : String)
    (htag : tags.contains "currency-conversion" = false) :
    txnWellFormed (Entry.txn d flag n tags
      (simple_posting_pair dst src amt cur)) = true := by
  simp only [txnWellFormed, simple_posting_pair]
  rw [htag]
  simp [simple_posting]

/-- The combined conversion transaction is well-formed. -/
lemma txnWellFormed_conv (d : ℤ) (n : String) (p1 : Posting) (amt : ℚ)
    (cur : String) (h0 : amt ≠ 0) :
    txnWellFormed (Entry.txn d FLAG_OKAY n ["paypal", "currency-conversion"]
      [p1, pricedSecond p1 amt cur]) = true := by
  simp only [txnWellFormed]
  rw [show (["paypal", "currency-conversion"].contains "currency-conversion")
        = true from rfl]
  simp [h0]

/-- The balance batch is well-formed. -/
lemma all_wf_balMap (d : ℤ) (acc : String) (m : List (String × String)) :
    ((m.map fun p => Entry.balance d acc p.2 p.1).all txnWellFormed) = true := by
  induction m with
  | nil => rfl
  | cons p rest ih => simp [ih]

/-- No Upwork tag is the conversion tag. -/
lemma upworkTag_ne_conv (t : String) :
    ([upworkTag t].contains "currency-conversion") = false := by
  unfold upworkTag
  split <;> rfl

/-- A successful Upwork posting construction yields a debit/credit pair. -/
lemma upworkPostings_ok_inv (r : UpworkRow) (ps : List Posting)
    (h : upworkPostings r = .ok ps) :
    ∃ dst, ps = simple_posting_pair UPWORK_BAL dst r.amount USD := by
  unfold upworkPostings at h
  by_cases hm : r.type ∈ upworkTypes
  · rw [if_pos hm] at h
    by_cases h1 : r.type = "Withdrawal"
    · rw [if_pos h1] at h
      rcases hlf : get_last_four_from_upwork_description r.desc with e | lf <;>
        rw [hlf] at h
      · simp at h
      · simp only [Except.ok.injEq] at h
        exact ⟨upwork_in_transit_account_name lf, h.symm⟩
    · rw [if_neg h1] at h
      by_cases h2 : r.type = "Fixed Price"
      · rw [if_pos h2] at h
        simp only [Except.ok.injEq] at h
        exact ⟨UPWORK_FP, h.symm⟩
      · rw [if_neg h2] at h
        by_cases h3 : r.type = "Bonus"
        · rw [if_pos h3] at h
          simp only [Except.ok.injEq] at h
          exact ⟨UPWORK_BON, h.symm⟩
        · rw [if_neg h3] at h
          by_cases h4 : r.type = "Hourly"
          · rw [if_pos h4] at h
            simp only [Except.ok.injEq] at h
            exact ⟨UPWORK_HR, h.symm⟩
          · rw [if_neg h4] at h
            by_cases h5 : r.type = "Refund"
            · rw [if_pos h5] at h
              simp only [Except.ok.injEq] at h
              exact ⟨UPWORK_REF, h.symm⟩
            · rw [if_neg h5] at h
              by_cases h6 : r.type = "Service Fee"
              · rw [if_pos h6] at h
                simp only [Except.ok.injEq] at h
                exact ⟨UPWORK_SF, h.symm⟩
              · rw [if_neg h6] at h
                simp only [Except.ok.injEq] at h
                exact ⟨UPWORK_MISC, h.symm⟩
  · rw [if_neg hm] at h
    simp at h

/-- Every entry emitted by a PayPal step is well-formed. -/
lemma paypalStep_wf (cb : ℤ) (s : PaypalState) (r : PaypalRow)
    (es : List Entry) (s' : PaypalState)
    (h : paypalStep cb s r = .ok (es, s')) : es.all txnWellFormed = true := by
  obtain ⟨hst, hcase⟩ := paypalStep_ok_inv cb s r es s' h
  rcases hcase with ⟨_, rfl, _⟩ | ⟨amt, ha, hcase⟩
  · rfl
  · rcases hcase with ⟨_, rfl, _⟩ | ⟨_, _, rfl, _⟩ | ⟨txnEntries, fc2, hg, hsk, hpp, rfl, _⟩
    · rfl
    · rfl
    · rw [List.all_append]
      have h1 : txnEntries.all txnWellFormed = true := by
        rcases paypalPostings_ok_inv s.firstConv r amt PAYPAL_BAL
            (paypalSa2 r (paypalSa1 s.srcAcc amt)) (paypalFlag r) txnEntries fc2 hpp with
          ⟨_, _, rfl, _⟩ | ⟨p1, _, _, h0, rfl, _⟩ | ⟨src, _, _, rfl, _⟩
        · rfl
        · simp [txnWellFormed_conv r.date (paypalDesc r) p1 amt r.currency h0]
        · simp [txnWellFormed_pair r.date (paypalFlag r) (paypalDesc r)
            ["paypal"] PAYPAL_BAL src amt r.currency rfl]
      have h2 : (paypalBalBlock s r).1.all txnWellFormed = true := by
        by_cases hd : r.date ∈ s.txnDates
        · rw [paypalBalBlock_mem s r hd]
          rfl
        · rw [paypalBalBlock_new s r hd]
          exact all_wf_balMap r.date PAYPAL_BAL s.prevBalances
      rw [h1, h2]
      rfl

/-- Every entry emitted by an Upwork step is well-formed. -/
lemma upworkStep_wf (s : List ℤ) (r : UpworkRow) (es : List Entry)
    (s' : List ℤ) (h : upworkStep s r = .ok (es, s')) :
    es.all txnWellFormed = true := by
  obtain ⟨t, hc, hcase⟩ := stepWithBalance_ok_inv upworkCore upworkBal
    (fun r => r.date) s r es s' h
  obtain ⟨ps, hp, rfl⟩ := upworkCore_ok_inv r t hc
  obtain ⟨dst, rfl⟩ := upworkPostings_ok_inv r ps hp
  have hwf : txnWellFormed (Entry.txn r.date FLAG_OKAY r.desc [upworkTag r.type]
      (simple_posting_pair UPWORK_BAL dst r.amount USD)) = true :=
    txnWellFormed_pair r.date FLAG_OKAY r.desc [upworkTag r.type]
      UPWORK_BAL dst r.amount USD (upworkTag_ne_conv r.type)
  rcases hcase with ⟨_, rfl, _⟩ | ⟨_, rfl, _⟩
  · simp [hwf]
  · simp [hwf, upworkBal]

/-- Every entry emitted by a Schwab step is well-formed. -/
lemma schwabStep_wf (an atm intr : String) (s : List ℤ) (r : SchwabRow)
    (es : List Entry) (s' : List ℤ)
    (h : schwabStep an atm intr s r = .ok (es, s')) :
    es.all txnWellFormed = true := by
  obtain ⟨t, hc, hcase⟩ := stepWithBalance_ok_inv (schwabCore an atm intr)
    (schwabBal an) (fun r => r.date) s r es s' h
  obtain ⟨ps, flag, hp, rfl⟩ := schwabCore_ok_inv an atm intr r t hc
  obtain ⟨dst, src, amt, rfl⟩ := schwabPostings_ok_inv an atm intr r ps flag hp
  have hwf : txnWellFormed (Entry.txn r.date flag r.desc []
      (simple_posting_pair dst src amt USD)) = true :=
    txnWellFormed_pair r.date flag r.desc [] dst src amt USD rfl
  rcases hcase with ⟨_, rfl, _⟩ | ⟨_, rfl, _⟩
  · simp [hwf]
  · simp [hwf, schwabBal]

/-! Balance-key invariants (machinery for the at-most-one-assertion
invariant). -/

/-- The per-currency balance batch has pairwise-distinct keys when the
per-currency map has duplicate-free keys. -/
lemma balMap_keys_pairwise (d : ℤ) (acc : String)
    (m : List (String × String)) (h : (m.map Prod.fst).Nodup) :
    (m.map fun p => ((d, acc, p.1) : ℤ × String × String)).Pairwise
      (fun a b => a ≠ b) := by
  rw [List.pairwise_map]
  have h' := (List.pairwise_map).mp h
  exact h'.imp (fun hne heq => hne (congrArg (fun k => k.2.2) heq))

/-- The date of the current row is recorded by the balance block. -/
lemma paypalBalBlock_date_mem (s : PaypalState) (r : PaypalRow) :
    r.date ∈ (paypalBalBlock s r).2 := by
  by_cases hd : r.date ∈ s.txnDates
  · rw [paypalBalBlock_mem s r hd]
    exact hd
  · rw [paypalBalBlock_new s r hd]
    simp

/-- The PayPal step only ever extends the set of seen dates. -/
lemma paypalStep_datesMono (cb : ℤ) (s : PaypalState) (r : PaypalRow)
    (es : List Entry) (s' : PaypalState)
    (h : paypalStep cb s r = .ok (es, s')) :
    ∀ d ∈ s.txnDates, d ∈ s'.txnDates := by
  obtain ⟨_, hcase⟩ := paypalStep_ok_inv cb s r es s' h
  rcases hcase with ⟨_, _, rfl⟩ | ⟨amt, _, hcase⟩
  · exact fun d hd => hd
  · rcases hcase with ⟨_, _, rfl⟩ | ⟨_, _, _, rfl⟩ |
      ⟨txnEntries, fc2, _, _, _, _, rfl⟩
    · exact fun d hd => hd
    · exact fun d hd => hd
    · intro d hd
      show d ∈ (paypalBalBlock s r).2
      by_cases hmem : r.date ∈ s.txnDates
      · rw [paypalBalBlock_mem s r hmem]
        exact hd
      · rw [paypalBalBlock_new s r hmem]
        exact List.mem_append_left _ hd

/-- Step invariant for the PayPal importer: balance keys live at newly
seen dates, are duplicate-free, and key-nodup of the balance map is
preserved. -/
lemma paypalStep_keyInv (cb : ℤ) (s : PaypalState) (r : PaypalRow)
    (es : List Entry) (s' : PaypalState)
    (hI : (s.prevBalances.map Prod.fst).Nodup)
    (h : paypalStep cb s r = .ok (es, s')) :
    (s'.prevBalances.map Prod.fst).Nodup ∧
    (∀ d ∈ s.txnDates, d ∈ s'.txnDates) ∧
    (∀ k ∈ balKeys es, k.1 ∈ s'.txnDates ∧ k.1 ∉ s.txnDates) ∧
    (balKeys es).Pairwise (fun a b => a ≠ b) := by
  refine ⟨?_, paypalStep_datesMono cb s r es s' h, ?_, ?_⟩ <;>
    obtain ⟨_, hcase⟩ := paypalStep_ok_inv cb s r es s' h
  · rcases hcase with ⟨_, _, rfl⟩ | ⟨amt, _, hcase⟩
    · exact hI
    · rcases hcase with ⟨_, _, rfl⟩ | ⟨_, _, _, rfl⟩ |
        ⟨txnEntries, fc2, _, _, _, _, rfl⟩
      · exact hI
      · exact hI
      · exact insertAssoc_keys_nodup s.prevBalances r.currency r.balance hI
  · rcases hcase with ⟨_, rfl, _⟩ | ⟨amt, _, hcase⟩
    · simp
    · rcases hcase with ⟨_, rfl, _⟩ | ⟨_, _, rfl, _⟩ |
        ⟨txnEntries, fc2, _, _, hpp, rfl, rfl⟩
      · simp
      · simp
      · rw [balKeys_append,
          paypalPostings_balKeys s.firstConv r amt PAYPAL_BAL
            (paypalSa2 r (paypalSa1 s.srcAcc amt)) (paypalFlag r)
            txnEntries fc2 hpp]
        by_cases hd : r.date ∈ s.txnDates
        · rw [paypalBalBlock_mem s r hd]
          simp
        · rw [paypalBalBlock_new s r hd]
          simp only [List.nil_append, balKeys_balMap]
          intro k hk
          obtain ⟨p, _, rfl⟩ := List.mem_map.mp hk
          constructor
          · simp
          · exact hd
  · rcases hcase with ⟨_, rfl, _⟩ | ⟨amt, _, hcase⟩
    · simp
    · rcases hcase with ⟨_, rfl, _⟩ | ⟨_, _, rfl, _⟩ |
        ⟨txnEntries, fc2, _, _, hpp, rfl, rfl⟩
      · simp
      · simp
      · rw [balKeys_append,
          paypalPostings_balKeys s.firstConv r amt PAYPAL_BAL
            (paypalSa2 r (paypalSa1 s.srcAcc amt)) (paypalFlag r)
            txnEntries fc2 hpp]
        by_cases hd : r.date ∈ s.txnDates
        · rw [paypalBalBlock_mem s r hd]
          simp
        · rw [paypalBalBlock_new s r hd]
          simp only [List.nil_append, balKeys_balMap]
          exact balMap_keys_pairwise r.date PAYPAL_BAL s.prevBalances hI

/-- A singleton non-balance entry carries no balance keys. -/
lemma balKeys_singleton_nb (t : Entry) (h : isBalanceB t = false) :
    balKeys [t] = [] := by
  cases t with
  | openAcc d a cs => rfl
  | pad d a b => rfl
  | txn d f n tg ps => rfl
  | balance d a b c => exact absurd h (by simp)

/-- Step invariant for the shared Upwork/Schwab loop body, with the date
projection shifted by one day. -/
lemma stepWithBalance_keyInv {ρ : Type} (core : ρ → Except String Entry)
    (mkBal : ρ → Entry) (dateOf : ρ → ℤ)
    (hnb : ∀ r t, core r = .ok t → isBalanceB t = false)
    (hkey : ∀ r, ∃ acc str cur, mkBal r = .balance (dateOf r + 1) acc str cur)
    (s : List ℤ) (r : ρ) (es : List Entry) (s' : List ℤ)
    (h : stepWithBalance core mkBal dateOf s r = .ok (es, s')) :
    (∀ d ∈ s.map (· + 1), d ∈ s'.map (· + 1)) ∧
    (∀ k ∈ balKeys es, k.1 ∈ s'.map (· + 1) ∧ k.1 ∉ s.map (· + 1)) ∧
    (balKeys es).Pairwise (fun a b => a ≠ b) := by
  obtain ⟨t, hc, hcase⟩ := stepWithBalance_ok_inv core mkBal dateOf s r es s' h
  have hbt := balKeys_singleton_nb t (hnb r t hc)
  rcases hcase with ⟨hd, rfl, rfl⟩ | ⟨hd, rfl, rfl⟩
  · refine ⟨fun d hd => hd, ?_, ?_⟩
    · rw [hbt]
      intro k hk
      exact absurd hk (by simp)
    · rw [hbt]
      exact List.Pairwise.nil
  · obtain ⟨acc, str, cur, hb⟩ := hkey r
    have hkeys : balKeys [t, mkBal r] = [(dateOf r + 1, acc, cur)] := by
      have : ([t, mkBal r] : List Entry) = [t] ++ [mkBal r] := rfl
      rw [this, balKeys_append, hbt, hb]
      rfl
    refine ⟨?_, ?_, ?_⟩
    · intro d hd
      rw [List.map_append]
      exact List.mem_append_left _ hd
    · rw [hkeys]
      intro k hk
      rw [List.mem_singleton] at hk
      subst hk
      constructor
      · rw [List.map_append]
        apply List.mem_append_right
        simp
      · intro hmem
        obtain ⟨d, hdmem, hdeq⟩ := List.mem_map.mp hmem
        have : d = dateOf r := by omega
        subst this
        exact hd hdmem
    · rw [hkeys]
      exact List.pairwise_singleton _ _

/-- The shared loop body only ever extends the set of seen dates. -/
lemma stepWithBalance_datesMono {ρ : Type} (core : ρ → Except String Entry)
    (mkBal : ρ → Entry) (dateOf : ρ → ℤ) (s : List ℤ) (r : ρ)
    (es : List Entry) (s' : List ℤ)
    (h : stepWithBalance core mkBal dateOf s r = .ok (es, s')) :
    ∀ d ∈ s, d ∈ s' := by
  obtain ⟨t, _, hcase⟩ := stepWithBalance_ok_inv core mkBal dateOf s r es s' h
  rcases hcase with ⟨_, _, rfl⟩ | ⟨_, _, rfl⟩
  · exact fun d hd => hd
  · exact fun d hd => List.mem_append_left _ hd

/-! Second-run lemmas: re-extracting a file with the date set already
populated reproduces the first run minus its balance assertions. -/

/-- The per-currency balance batch is entirely balance assertions. -/
lemma filter_nb_balMap (d : ℤ) (acc : String) (m : List (String × String)) :
    ((m.map fun p => Entry.balance d acc p.2 p.1).filter
      (fun e => !isBalanceB e)) = [] := by
  induction m with
  | nil => rfl
  | cons p rest ih => simp [ih]

/-- The transaction entries of the posting construction survive the
balance filter. -/
lemma paypalPostings_filter_nb (fc0 : Option Posting) (r : PaypalRow)
    (amt : ℚ) (dst : String) (sa : Option String) (flag : String)
    (es : List Entry) (fc : Option Posting)
    (h : paypalPostings fc0 r amt dst sa flag = .ok (es, fc)) :
    es.filter (fun e => !isBalanceB e) = es := by
  rcases paypalPostings_ok_inv fc0 r amt dst sa flag es fc h with
    ⟨_, _, rfl, _⟩ | ⟨p1, _, _, _, rfl, _⟩ | ⟨src, _, _, rfl, _⟩ <;> simp

/-- Rerunning one shared-loop step with every seen date already recorded
drops exactly the balance assertion. -/
lemma stepWithBalance_second {ρ : Type} (core : ρ → Except String Entry)
    (mkBal : ρ → Entry) (dateOf : ρ → ℤ)
    (hnb : ∀ r t, core r = .ok t → isBalanceB t = false)
    (hkb : ∀ r, isBalanceB (mkBal r) = true)
    (s : List ℤ) (r : ρ) (es : List Entry) (s' : List ℤ)
    (h : stepWithBalance core mkBal dateOf s r = .ok (es, s'))
    (s2 : List ℤ) (hs2 : ∀ d ∈ s', d ∈ s2) :
    stepWithBalance core mkBal dateOf s2 r =
      .ok (es.filter (fun e => !isBalanceB e), s2) := by
  obtain ⟨t, hc, hcase⟩ := stepWithBalance_ok_inv core mkBal dateOf s r es s' h
  have hft : isBalanceB t = false := hnb r t hc
  rcases hcase with ⟨hd, rfl, rfl⟩ | ⟨hd, rfl, rfl⟩
  · rw [stepWithBalance_build_mem core mkBal dateOf s2 r t hc (hs2 _ hd)]
    simp [List.filter, hft]
  · have hdm : dateOf r ∈ s2 := hs2 _ (by simp)
    rw [stepWithBalance_build_mem core mkBal dateOf s2 r t hc hdm]
    simp [List.filter, hft, hkb r]

/-- Rerunning a whole run of a date-set step from its final date set
filters out exactly the balance assertions. -/
lemma runSteps_second_dates {ρ : Type}
    (f : List ℤ → ρ → Except String (List Entry × List ℤ))
    (hmono : ∀ s r es s', f s r = .ok (es, s') → ∀ d ∈ s, d ∈ s')
    (hsecond : ∀ s r es s', f s r = .ok (es, s') → ∀ s2, (∀ d ∈ s', d ∈ s2) →
      f s2 r = .ok (es.filter (fun e => !isBalanceB e), s2)) :
    ∀ (rows : List ρ) (s : List ℤ) es s',
      runSteps f s rows = .ok (es, s') →
      runSteps f s' rows = .ok (es.filter (fun e => !isBalanceB e), s') := by
  intro rows
  induction rows with
  | nil =>
    intro s es s' h
    obtain ⟨rfl, rfl⟩ := (runSteps_nil_ok f s es s').mp h
    rfl
  | cons r rs ih =>
    intro s es s' h
    rcases (runSteps_cons_ok f s r rs es s').mp h with ⟨es1, s1, es2, h1, h2, rfl⟩
    have hsub : ∀ d ∈ s1, d ∈ s' := runSteps_mono f (fun x => x) hmono rs s1 es2 s' h2
    have hstep2 := hsecond s r es1 s1 h1 s' hsub
    have hrun2 := ih s1 es2 s' h2
    rw [List.filter_append]
    exact (runSteps_cons_ok f s' r rs _ s').mpr
      ⟨es1.filter (fun e => !isBalanceB e), s', es2.filter (fun e => !isBalanceB e),
       hstep2, hrun2, rfl⟩

/-- Rerunning one PayPal step with every seen date already recorded drops
exactly the balance assertions. -/
lemma paypalStep_second (cb : ℤ) (D : List ℤ) (pb : List (String × String))
    (fc : Option Posting) (sa : Option String) (r : PaypalRow)
    (es : List Entry) (s' : PaypalState)
    (h : paypalStep cb ⟨D, pb, fc, sa⟩ r = .ok (es, s'))
    (D2 : List ℤ) (hD2 : ∀ d ∈ s'.txnDates, d ∈ D2) :
    paypalStep cb ⟨D2, pb, fc, sa⟩ r =
      .ok (es.filter (fun e => !isBalanceB e),
           ⟨D2, s'.prevBalances, s'.firstConv, s'.srcAcc⟩) := by
  obtain ⟨hst, hcase⟩ := paypalStep_ok_inv cb ⟨D, pb, fc, sa⟩ r es s' h
  rcases hcase with ⟨ha, rfl, rfl⟩ | ⟨amt, ha, hcase⟩
  · rw [paypalStep_build_empty cb ⟨D2, pb, fc, sa⟩ r hst ha]
    rfl
  · rcases hcase with ⟨hg, rfl, rfl⟩ | ⟨hg, hsk, rfl, rfl⟩ |
      ⟨txnEntries, fc2, hg, hsk, hpp, rfl, rfl⟩
    · rw [paypalStep_build_ghost cb ⟨D2, pb, fc, sa⟩ r amt hst ha hg]
      rfl
    · rw [paypalStep_build_skip cb ⟨D2, pb, fc, sa⟩ r amt hst ha hg hsk]
      rfl
    · have hdm : r.date ∈ D2 :=
        hD2 r.date (paypalBalBlock_date_mem ⟨D, pb, fc, sa⟩ r)
      rw [paypalStep_build_main cb ⟨D2, pb, fc, sa⟩ r amt txnEntries fc2
        hst ha hg hsk hpp]
      rw [paypalBalBlock_mem ⟨D2, pb, fc, sa⟩ r hdm]
      rw [List.filter_append,
        paypalPostings_filter_nb fc r amt PAYPAL_BAL
          (paypalSa2 r (paypalSa1 sa amt)) (paypalFlag r) txnEntries fc2 hpp]
      have hfb : ((paypalBalBlock ⟨D, pb, fc, sa⟩ r).1.filter
          (fun e => !isBalanceB e)) = [] := by
        by_cases hd : r.date ∈ D
        · rw [paypalBalBlock_mem ⟨D, pb, fc, sa⟩ r hd]
          rfl
        · rw [paypalBalBlock_new ⟨D, pb, fc, sa⟩ r hd]
          exact filter_nb_balMap r.date PAYPAL_BAL pb
      rw [hfb, List.append_nil]

/-- Rerunning a whole PayPal run from its final date set, with the
per-call state freshly reset, filters out exactly the balance
assertions. -/
lemma paypalRun_second (cb : ℤ) :
    ∀ (rows : List PaypalRow) (D : List ℤ) (pb : List (String × String))
      (fc : Option Posting) (sa : Option String) (es : List Entry)
      (s' : PaypalState),
      runSteps (paypalStep cb) ⟨D, pb, fc, sa⟩ rows = .ok (es, s') →
      runSteps (paypalStep cb) ⟨s'.txnDates, pb, fc, sa⟩ rows =
        .ok (es.filter (fun e => !isBalanceB e), s') := by
  intro rows
  induction rows with
  | nil =>
    intro D pb fc sa es s' h
    obtain ⟨rfl, rfl⟩ := (runSteps_nil_ok (paypalStep cb) _ es s').mp h
    rfl
  | cons r rs ih =>
    intro D pb fc sa es s' h
    rcases (runSteps_cons_ok (paypalStep cb) _ r rs es s').mp h with
      ⟨es1, s1, es2, h1, h2, rfl⟩
    obtain ⟨D1, pb1, fc1, sa1⟩ := s1
    have hsub : ∀ d ∈ D1, d ∈ s'.txnDates :=
      runSteps_mono (paypalStep cb) (fun st => st.txnDates)
        (paypalStep_datesMono cb) rs ⟨D1, pb1, fc1, sa1⟩ es2 s' h2
    have hstep2 := paypalStep_second cb D pb fc sa r es1 ⟨D1, pb1, fc1, sa1⟩
      h1 s'.txnDates hsub
    have hrun2 := ih D1 pb1 fc1 sa1 es2 s' h2
    rw [List.filter_append]
    exact (runSteps_cons_ok (paypalStep cb) _ r rs _ s').mpr
      ⟨es1.filter (fun e => !isBalanceB e), ⟨s'.txnDates, pb1, fc1, sa1⟩,
       es2.filter (fun e => !isBalanceB e), hstep2, hrun2, rfl⟩

/-! Remaining glue lemmas for the claims. -/

/-- The transaction entries of the posting construction carry no balance
assertions. -/
lemma paypalPostings_balancesOf (fc0 : Option Posting) (r : PaypalRow)
    (amt : ℚ) (dst : String) (sa : Option String) (flag : String)
    (es : List Entry) (fc : Option Posting)
    (h : paypalPostings fc0 r amt dst sa flag = .ok (es, fc)) :
    balancesOf es = [] := by
  rcases paypalPostings_ok_inv fc0 r amt dst sa flag es fc h with
    ⟨_, _, rfl, _⟩ | ⟨p1, _, _, _, rfl, _⟩ | ⟨src, _, _, rfl, _⟩ <;> simp

/-- The transaction entries of the posting construction are all
transactions. -/
lemma paypalPostings_txnsOf (fc0 : Option Posting) (r : PaypalRow)
    (amt : ℚ) (dst : String) (sa : Option String) (flag : String)
    (es : List Entry) (fc : Option Posting)
    (h : paypalPostings fc0 r amt dst sa flag = .ok (es, fc)) :
    txnsOf es = es := by
  rcases paypalPostings_ok_inv fc0 r amt dst sa flag es fc h with
    ⟨_, _, rfl, _⟩ | ⟨p1, _, _, _, rfl, _⟩ | ⟨src, _, _, rfl, _⟩ <;> simp

/-- The balance batch contains no transactions (both block shapes). -/
lemma paypalBalBlock_txnsOf (s : PaypalState) (r : PaypalRow) :
    txnsOf (paypalBalBlock s r).1 = [] := by
  by_cases hd : r.date ∈ s.txnDates
  · rw [paypalBalBlock_mem s r hd]
    rfl
  · rw [paypalBalBlock_new s r hd]
    exact txnsOf_balMap r.date PAYPAL_BAL s.prevBalances

/-- An Upwork transaction entry is not a balance assertion. -/
lemma upworkCore_nb (r : UpworkRow) (t : Entry) (h : upworkCore r = .ok t) :
    isBalanceB t = false := by
  obtain ⟨ps, _, rfl⟩ := upworkCore_ok_inv r t h
  rfl

/-- A Schwab transaction entry is not a balance assertion. -/
lemma schwabCore_nb (an atm intr : String) (r : SchwabRow) (t : Entry)
    (h : schwabCore an atm intr r = .ok t) : isBalanceB t = false := by
  obtain ⟨ps, flag, _, rfl⟩ := schwabCore_ok_inv an atm intr r t h
  rfl

/-- The PayPal open/pad prefix is well-formed. -/
lemma paypalOpenEntries_all_wf (c : List String) (od : ℤ) (pad : Bool) :
    (paypalOpenEntries c od pad).all txnWellFormed = true := by
  unfold paypalOpenEntries
  cases pad <;>
    simp [open_account, List.all_append, open_accounts_all_wf, pad_account]

/-- The PayPal open/pad prefix carries no balance keys. -/
lemma paypalOpenEntries_balKeys (c : List String) (od : ℤ) (pad : Bool) :
    balKeys (paypalOpenEntries c od pad) = [] := by
  unfold paypalOpenEntries
  cases pad <;>
    simp [open_account, balKeys_append, open_accounts_balKeys, pad_account]

/-- The PayPal open/pad prefix survives the balance filter. -/
lemma paypalOpenEntries_filter_nb (c : List String) (od : ℤ) (pad : Bool) :
    (paypalOpenEntries c od pad).filter (fun e => !isBalanceB e) =
      paypalOpenEntries c od pad := by
  unfold paypalOpenEntries
  cases pad <;>
    simp [open_account, List.filter_append, open_accounts_filter_nb, pad_account]

/-- The PayPal open/pad prefix contains no transactions. -/
lemma paypalOpenEntries_txnsOf (c : List String) (od : ℤ) (pad : Bool) :
    txnsOf (paypalOpenEntries c od pad) = [] := by
  unfold paypalOpenEntries
  cases pad <;>
    simp [open_account, open_accounts_txnsOf, pad_account]

/-- The Upwork open prefix is well-formed. -/
lemma upworkOpenEntries_all_wf (dict : List (String × String)) (od : ℤ) :
    (upworkOpenEntries dict od).all txnWellFormed = true := by
  unfold upworkOpenEntries open_usd_accounts
  exact open_accounts_all_wf _ od [USD]

/-- The Upwork open prefix carries no balance keys. -/
lemma upworkOpenEntries_balKeys (dict : List (String × String)) (od : ℤ) :
    balKeys (upworkOpenEntries dict od) = [] := by
  unfold upworkOpenEntries open_usd_accounts
  exact open_accounts_balKeys _ od [USD]

/-- The Upwork open prefix survives the balance filter. -/
lemma upworkOpenEntries_filter_nb (dict : List (String × String)) (od : ℤ) :
    (upworkOpenEntries dict od).filter (fun e => !isBalanceB e) =
      upworkOpenEntries dict od := by
  unfold upworkOpenEntries open_usd_accounts
  exact open_accounts_filter_nb _ od [USD]

/-- The Upwork open prefix contains no transactions. -/
lemma upworkOpenEntries_txnsOf (dict : List (String × String)) (od : ℤ) :
    txnsOf (upworkOpenEntries dict od) = [] := by
  unfold upworkOpenEntries open_usd_accounts
  exact open_accounts_txnsOf _ od [USD]

/-- The Schwab open/pad prefix is well-formed. -/
lemma schwabOpenEntries_all_wf (an atm intr : String) (od : ℤ) :
    (schwabOpenEntries an atm intr od).all txnWellFormed = true := by
  unfold schwabOpenEntries
  simp [List.all_append, open_usd_accounts, open_accounts_all_wf, pad_account]

/-- The Schwab open/pad prefix carries no balance keys. -/
lemma schwabOpenEntries_balKeys (an atm intr : String) (od : ℤ) :
    balKeys (schwabOpenEntries an atm intr od) = [] := by
  unfold schwabOpenEntries
  simp [balKeys_append, open_usd_accounts, open_accounts_balKeys, pad_account]

/-- The Schwab open/pad prefix survives the balance filter. -/
lemma schwabOpenEntries_filter_nb (an atm intr : String) (od : ℤ) :
    (schwabOpenEntries an atm intr od).filter (fun e => !isBalanceB e) =
      schwabOpenEntries an atm intr od := by
  unfold schwabOpenEntries
  simp [List.filter_append, open_usd_accounts, open_accounts_filter_nb,
    pad_account]

/-- A successful Upwork step forces a recognized transaction type. -/
lemma upworkStep_type_mem (s : List ℤ) (r : UpworkRow) (es : List Entry)
    (s' : List ℤ) (h : upworkStep s r = .ok (es, s')) :
    r.type ∈ upworkTypes := by
  obtain ⟨t, hc, _⟩ := stepWithBalance_ok_inv upworkCore upworkBal
    (fun r => r.date) s r es s' h
  obtain ⟨ps, hp, _⟩ := upworkCore_ok_inv r t hc
  exact upworkPostings_type_mem r ps hp

/-- A successful Schwab step forces a recognized transaction type. -/
lemma schwabStep_type_mem (an atm intr : String) (s : List ℤ) (r : SchwabRow)
    (es : List Entry) (s' : List ℤ)
    (h : schwabStep an atm intr s r = .ok (es, s')) :
    r.type ∈ schwabTypes := by
  obtain ⟨t, hc, _⟩ := stepWithBalance_ok_inv (schwabCore an atm intr)
    (schwabBal an) (fun r => r.date) s r es s' h
  obtain ⟨ps, flag, hp, _⟩ := schwabCore_ok_inv an atm intr r t hc
  exact schwabPostings_type_mem an atm intr r ps flag hp

/-- Computation: the Upwork posting construction of a withdrawal whose
description has no account suffix fails. -/
lemma upworkPostings_withdrawal_err (r : UpworkRow) (e : String)
    (hW : r.type = "Withdrawal")
    (hlf : get_last_four_from_upwork_description r.desc = .error e) :
    upworkPostings r = .error e := by
  have hm : r.type ∈ upworkTypes := by
    rw [hW]
    decide
  unfold upworkPostings
  rw [if_pos hm, if_pos hW, hlf]

/-- Computation: the Upwork posting construction of a withdrawal with a
parsed suffix builds the in-transit pair. -/
lemma upworkPostings_withdrawal_ok (r : UpworkRow) (lf : String)
    (hW : r.type = "Withdrawal")
    (hlf : get_last_four_from_upwork_description r.desc = .ok lf) :
    upworkPostings r = .ok (simple_posting_pair UPWORK_BAL
      (upwork_in_transit_account_name lf) r.amount USD) := by
  have hm : r.type ∈ upworkTypes := by
    rw [hW]
    decide
  unfold upworkPostings
  rw [if_pos hm, if_pos hW, hlf]

/-! The claims. -/

/-- C1: the claim says a PayPal 'General Withdrawal' row posts to
'Equity:Earnings:Previous' before `clear_before_date` and to
'Assets:InTransit:Paypal' otherwise.  The source chooses that destination
(lines 205-209) but line 219 then reassigns `dst_acc = Account.BAL.value`
unconditionally, so the choice is dead: evaluating the embedded extract on
a withdrawal dated before the cutoff (50 < 100) yields a transaction
between 'Assets:Paypal:Balance' and the fallback 'Expenses:Uncategorized',
and neither historical-equity nor in-transit account appears. -/
theorem c1_withdrawal_destination_clobbered :
    ((50 : ℤ) < 100) ∧
    paypalExtract 100 [USD] 0 false []
      [⟨50, "", "General Withdrawal", "Completed", some (-50), USD, "10.00"⟩] =
      .ok ([Entry.openAcc 0 PAYPAL_BAL [USD],
            Entry.openAcc 0 PAYPAL_HELD [USD],
            Entry.openAcc 0 PAYPAL_DON [USD],
            Entry.openAcc 0 PAYPAL_TRANS [USD],
            Entry.txn 50 FLAG_WARNING "General Withdrawal" ["paypal"]
              [⟨PAYPAL_BAL, ⟨-50, USD⟩, none⟩,
               ⟨DEFAULT_EXPENSE_ACC, ⟨50, USD⟩, none⟩]], [50]) ∧
    ("Equity:Earnings:Previous" ∉ [PAYPAL_BAL, DEFAULT_EXPENSE_ACC]) :=
  ⟨by decide, by decide, by decide⟩

/-- C2 (amended): the Upwork and Schwab importers fail fatally, with no
partial output, on any row whose transaction type is not a member of their
`TxnType` enums: a successful extract forces every row's type to be
recognized.  (The PayPal importer has no such check; see the
counterexample.) -/
theorem c2_unknown_type_fatal :
    (∀ (dict : List (String × String)) (od : ℤ) (dates : List ℤ)
       (rows : List UpworkRow),
       isOkB (upworkExtract dict od dates rows) = true →
       ∀ r ∈ rows, r.type ∈ upworkTypes) ∧
    (∀ (stem sfx : String) (od : ℤ) (dates : List ℤ) (rows : List SchwabRow),
       isOkB (schwabExtract stem sfx od dates rows) = true →
       ∀ r ∈ rows, r.type ∈ schwabTypes) := by
  constructor
  · intro dict od dates rows h r hr
    rcases hres : upworkExtract dict od dates rows with e | ⟨out, dates'⟩
    · rw [hres] at h
      simp [isOkB] at h
    · obtain ⟨es, hrun, _⟩ :=
        upworkExtract_ok_inv dict od dates rows out dates' hres
      exact runSteps_rowProp upworkStep (fun r => r.type ∈ upworkTypes)
        (fun s r es s' h => upworkStep_type_mem s r es s' h)
        rows dates es dates' hrun r hr
  · intro stem sfx od dates rows h r hr
    rcases hres : schwabExtract stem sfx od dates rows with e | ⟨out, dates'⟩
    · rw [hres] at h
      simp [isOkB] at h
    · obtain ⟨es, hrun, _⟩ :=
        schwabExtract_ok_inv stem sfx od dates rows out dates' hres
      exact runSteps_rowProp _ (fun r => r.type ∈ schwabTypes)
        (fun s r es s' h => schwabStep_type_mem _ _ _ s r es s' h)
        rows dates es dates' hrun r hr

/-- Witness for C2: concrete successful runs of both importers, with the
hypotheses discharged by evaluation. -/
theorem c2_unknown_type_fatal_witness :
    ("Bonus" ∈ upworkTypes) ∧ ("VISA" ∈ schwabTypes) :=
  ⟨c2_unknown_type_fatal.1 [] 0 [] [⟨20, "Bonus", "B", 10, "100.00"⟩]
     (by decide) ⟨20, "Bonus", "B", 10, "100.00"⟩ (by decide),
   c2_unknown_type_fatal.2 "Assets:Schwab" "PersonalChecking" 0 []
     [⟨40, "VISA", "store", some 25, none, "975.00"⟩]
     (by decide) ⟨40, "VISA", "store", some 25, none, "975.00"⟩ (by decide)⟩

/-- Counterexample for C2: the PayPal importer accepts a row whose type
'Bogus' is none of the types its extract branches on, emitting a
fallback-account transaction instead of failing, so the claim's
"all three importers" part is false. -/
theorem c2_paypal_unknown_type_not_fatal :
    ("Bogus" ∉ paypalHandledTypes) ∧
    paypalExtract 0 [USD] 0 false []
      [⟨10, "", "Bogus", "Completed", some 5, USD, "5.00"⟩] =
      .ok ([Entry.openAcc 0 PAYPAL_BAL [USD],
            Entry.openAcc 0 PAYPAL_HELD [USD],
            Entry.openAcc 0 PAYPAL_DON [USD],
            Entry.openAcc 0 PAYPAL_TRANS [USD],
            Entry.txn 10 FLAG_WARNING "Bogus" ["paypal"]
              [⟨PAYPAL_BAL, ⟨5, USD⟩, none⟩,
               ⟨DEFAULT_INCOME_ACC, ⟨-5, USD⟩, none⟩]], [10]) :=
  ⟨by decide, by decide⟩

/-- C3 (amended): an Upwork 'Withdrawal' row fails with the parse error of
`get_last_four_from_upwork_description` when the description has no
'xxxx-NNNN' suffix, and otherwise resolves the destination account by
formatting 'Assets:InTransit:Upwork:Schwab-NNNN' from the parsed suffix;
the caller-supplied `bank_account_dict` is not consulted, so no
missing-mapping error exists (see the counterexample). -/
theorem c3_withdrawal_resolution :
    (∀ (dates : List ℤ) (r : UpworkRow) (e : String),
       r.type = "Withdrawal" →
       get_last_four_from_upwork_description r.desc = .error e →
       upworkStep dates r = .error e) ∧
    (∀ (dates : List ℤ) (r : UpworkRow) (lf : String),
       r.type = "Withdrawal" →
       get_last_four_from_upwork_description r.desc = .ok lf →
       ∃ es dates', upworkStep dates r = .ok (es, dates') ∧
         txnsOf es = [Entry.txn r.date FLAG_OKAY r.desc ["Upwork-Withdrawal"]
           (simple_posting_pair UPWORK_BAL
             (upwork_in_transit_account_name lf) r.amount USD)]) := by
  constructor
  · intro dates r e hW hlf
    exact stepWithBalance_build_err upworkCore upworkBal (fun r => r.date)
      dates r e
      (upworkCore_build_err r e (upworkPostings_withdrawal_err r e hW hlf))
  · intro dates r lf hW hlf
    have hcore := upworkCore_build_ok r _ (upworkPostings_withdrawal_ok r lf hW hlf)
    by_cases hd : r.date ∈ dates
    · refine ⟨_, _, stepWithBalance_build_mem upworkCore upworkBal
        (fun r => r.date) dates r _ hcore hd, ?_⟩
      simp [hW, upworkTag]
    · refine ⟨_, _, stepWithBalance_build_new upworkCore upworkBal
        (fun r => r.date) dates r _ hcore hd, ?_⟩
      simp [hW, upworkTag, upworkBal]

/-- Witness for C3: both branches at concrete rows. -/
theorem c3_withdrawal_resolution_witness :
    (upworkStep [] ⟨20, "Withdrawal", "no suffix", -500, "100.00"⟩ =
      .error ("Could not extract acount number from Withdrawal description: "
        ++ "no suffix")) ∧
    (∃ es dates',
      upworkStep [] ⟨20, "Withdrawal", "W : xxxx-1234", -500, "100.00"⟩ =
        .ok (es, dates') ∧
      txnsOf es = [Entry.txn 20 FLAG_OKAY "W : xxxx-1234" ["Upwork-Withdrawal"]
        (simple_posting_pair UPWORK_BAL
          (upwork_in_transit_account_name "1234") (-500) USD)]) :=
  ⟨c3_withdrawal_resolution.1 [] ⟨20, "Withdrawal", "no suffix", -500, "100.00"⟩
     _ (by decide) (by decide),
   c3_withdrawal_resolution.2 [] ⟨20, "Withdrawal", "W : xxxx-1234", -500, "100.00"⟩
     "1234" (by decide) (by decide)⟩

/-- Counterexample for C3: the suffix '9999' is not a key of the supplied
`bank_account_dict`, yet extraction succeeds and routes the withdrawal to
the formatted in-transit account, where the claim predicts a
missing-mapping failure. -/
theorem c3_no_missing_mapping_error :
    lookupAssoc [("1234", "Assets:Schwab:Checking")] "9999" = none ∧
    upworkExtract [("1234", "Assets:Schwab:Checking")] 0 []
      [⟨20, "Withdrawal", "Withdrawal of 500.00 : xxxx-9999", -500, "100.00"⟩] =
      .ok ([Entry.openAcc 0 UPWORK_BAL [USD],
            Entry.openAcc 0 UPWORK_FP [USD],
            Entry.openAcc 0 UPWORK_BON [USD],
            Entry.openAcc 0 UPWORK_HR [USD],
            Entry.openAcc 0 UPWORK_MISC [USD],
            Entry.openAcc 0 UPWORK_SF [USD],
            Entry.openAcc 0 UPWORK_REF [USD],
            Entry.openAcc 0 "Assets:InTransit:Upwork:Schwab-1234" [USD],
            Entry.txn 20 FLAG_OKAY "Withdrawal of 500.00 : xxxx-9999"
              ["Upwork-Withdrawal"]
              [⟨UPWORK_BAL, ⟨-500, USD⟩, none⟩,
               ⟨"Assets:InTransit:Upwork:Schwab-9999", ⟨500, USD⟩, none⟩],
            Entry.balance 21 UPWORK_BAL "100.00" USD], [20]) :=
  ⟨by decide, by decide⟩

/-- C4 (amended): on the first encounter of a transaction date, the PayPal
importer emits one balance assertion per currency recorded so far, dated at
that same date with the previously recorded balance, then records the
current row's balance; the Upwork and Schwab importers instead emit exactly
one assertion dated the following day carrying the current row's own
running balance (they keep no per-currency previous-balance map). -/
theorem c4_balance_assertions_amended :
    (∀ (cb : ℤ) (s : PaypalState) (r : PaypalRow) (es : List Entry)
       (s' : PaypalState),
       paypalStep cb s r = .ok (es, s') → r.amount ≠ none →
       lookupAssoc s.prevBalances r.currency ≠ some r.balance →
       r.type ∉ paypalSkipTypes → r.date ∉ s.txnDates →
       balancesOf es =
         s.prevBalances.map (fun p => Entry.balance r.date PAYPAL_BAL p.2 p.1) ∧
       s'.prevBalances = insertAssoc s.prevBalances r.currency r.balance ∧
       s'.txnDates = s.txnDates ++ [r.date]) ∧
    (∀ (dates : List ℤ) (r : UpworkRow) (es : List Entry) (dates' : List ℤ),
       upworkStep dates r = .ok (es, dates') → r.date ∉ dates →
       balancesOf es = [Entry.balance (r.date + 1) UPWORK_BAL r.balance USD] ∧
       dates' = dates ++ [r.date]) ∧
    (∀ (an atm intr : String) (dates : List ℤ) (r : SchwabRow)
       (es : List Entry) (dates' : List ℤ),
       schwabStep an atm intr dates r = .ok (es, dates') → r.date ∉ dates →
       balancesOf es = [Entry.balance (r.date + 1) an r.balance USD] ∧
       dates' = dates ++ [r.date]) := by
  refine ⟨?_, ?_, ?_⟩
  · intro cb s r es s' h ha0 hg0 hsk0 hd0
    obtain ⟨hst, hcase⟩ := paypalStep_ok_inv cb s r es s' h
    rcases hcase with ⟨ha, _, _⟩ | ⟨amt, ha, hcase⟩
    · exact absurd ha ha0
    · rcases hcase with ⟨hg, _, _⟩ | ⟨_, hsk, _, _⟩ |
        ⟨txnEntries, fc2, hg, hsk, hpp, rfl, rfl⟩
      · exact absurd hg hg0
      · exact absurd hsk hsk0
      · rw [paypalBalBlock_new s r hd0]
        refine ⟨?_, rfl, rfl⟩
        rw [balancesOf_append,
          paypalPostings_balancesOf s.firstConv r amt PAYPAL_BAL
            (paypalSa2 r (paypalSa1 s.srcAcc amt)) (paypalFlag r)
            txnEntries fc2 hpp,
          balancesOf_balMap]
        rfl
  · intro dates r es dates' h hd0
    obtain ⟨t, hc, hcase⟩ := stepWithBalance_ok_inv upworkCore upworkBal
      (fun r => r.date) dates r es dates' h
    obtain ⟨ps, _, rfl⟩ := upworkCore_ok_inv r t hc
    rcases hcase with ⟨hd, _, _⟩ | ⟨_, rfl, rfl⟩
    · exact absurd hd hd0
    · exact ⟨by simp [upworkBal], rfl⟩
  · intro an atm intr dates r es dates' h hd0
    obtain ⟨t, hc, hcase⟩ := stepWithBalance_ok_inv (schwabCore an atm intr)
      (schwabBal an) (fun r => r.date) dates r es dates' h
    obtain ⟨ps, flag, _, rfl⟩ := schwabCore_ok_inv an atm intr r t hc
    rcases hcase with ⟨hd, _, _⟩ | ⟨_, rfl, rfl⟩
    · exact absurd hd hd0
    · exact ⟨by simp [schwabBal], rfl⟩

/-- Witness for C4: all three conjuncts applied at concrete steps, with
the hypotheses discharged by evaluation. -/
theorem c4_balance_assertions_amended_witness :
    (balancesOf
        [Entry.txn 20 FLAG_WARNING "T" ["paypal"]
           [⟨PAYPAL_BAL, ⟨5, "USD"⟩, none⟩,
            ⟨DEFAULT_INCOME_ACC, ⟨-5, "USD"⟩, none⟩],
         Entry.balance 20 PAYPAL_BAL "7.00" "USD"] =
       [("USD", "7.00")].map
         (fun p => Entry.balance 20 PAYPAL_BAL p.2 p.1) ∧
     ([("USD", "9.00")] : List (String × String)) =
       insertAssoc [("USD", "7.00")] "USD" "9.00" ∧
     ([20] : List ℤ) = [] ++ [20]) ∧
    (balancesOf
        [Entry.txn 20 FLAG_OKAY "B" ["Upwork-Bonus"]
           [⟨UPWORK_BAL, ⟨10, USD⟩, none⟩, ⟨UPWORK_BON, ⟨-10, USD⟩, none⟩],
         Entry.balance 21 UPWORK_BAL "100.00" USD] =
       [Entry.balance 21 UPWORK_BAL "100.00" USD] ∧
     ([20] : List ℤ) = [] ++ [20]) ∧
    (balancesOf
        [Entry.txn 40 FLAG_WARNING "store" []
           [⟨DEFAULT_EXPENSE_ACC, ⟨25, USD⟩, none⟩, ⟨"A:C", ⟨-25, USD⟩, none⟩],
         Entry.balance 41 "A:C" "975.00" USD] =
       [Entry.balance 41 "A:C" "975.00" USD] ∧
     ([40] : List ℤ) = [] ++ [40]) :=
  ⟨c4_balance_assertions_amended.1 0 ⟨[], [("USD", "7.00")], none, none⟩
     ⟨20, "", "T", "Completed", some 5, "USD", "9.00"⟩ _
     ⟨[20], [("USD", "9.00")], none, some DEFAULT_INCOME_ACC⟩
     (by decide) (by decide) (by decide) (by decide) (by decide),
   c4_balance_assertions_amended.2.1 [] ⟨20, "Bonus", "B", 10, "100.00"⟩
     _ [20] (by decide) (by decide),
   c4_balance_assertions_amended.2.2 "A:C" "I:AR" "I:IN" []
     ⟨40, "VISA", "store", some 25, none, "975.00"⟩ _ [40]
     (by decide) (by decide)⟩

/-- Counterexample for C4: a two-row reverse-chronological Upwork file.
On the first row no currency has been "seen so far", yet an assertion is
emitted; on the second (new) date the emitted assertion carries the second
row's own balance "200.00", not the previously recorded "100.00" the claim
predicts. -/
theorem c4_balance_uses_current_row :
    balancesOf (entriesOf (upworkExtract [] 0 []
      [⟨20, "Bonus", "B", 10, "100.00"⟩, ⟨19, "Bonus", "B2", 5, "200.00"⟩])) =
      [Entry.balance 21 UPWORK_BAL "100.00" USD,
       Entry.balance 20 UPWORK_BAL "200.00" USD] ∧
    ("200.00" : String) ≠ "100.00" :=
  ⟨by decide, by decide⟩

/-- C5: two consecutive PayPal 'General Currency Conversion' rows with
amounts `a` (currency X) and `b` (currency Y), processed from a state with
an empty conversion buffer, emit exactly one transaction for the pair, and
its second posting carries the price `sigRound5 (-a / b)` — minus the
amount ratio rounded to five significant figures — denominated in the
first row's currency.  (The hypotheses restate the skip rules: valid
statuses, nonempty amounts, rows that are not ghosts, and a nonzero second
amount, without which the source raises DivisionByZero.) -/
theorem c5_conversion_pair_price
    (cb : ℤ) (s : PaypalState) (r1 r2 : PaypalRow) (a b : ℚ)
    (ht1 : r1.type = "General Currency Conversion")
    (ht2 : r2.type = "General Currency Conversion")
    (hs1 : r1.status ∈ paypalValidStatuses)
    (hs2 : r2.status ∈ paypalValidStatuses)
    (ha : r1.amount = some a) (hb : r2.amount = some b) (hb0 : b ≠ 0)
    (hbuf : s.firstConv = none)
    (hg1 : lookupAssoc s.prevBalances r1.currency ≠ some r1.balance)
    (hg2 : lookupAssoc (insertAssoc s.prevBalances r1.currency r1.balance)
      r2.currency ≠ some r2.balance) :
    ∃ es1 s1 es2 s2,
      paypalStep cb s r1 = .ok (es1, s1) ∧
      paypalStep cb s1 r2 = .ok (es2, s2) ∧
      txnsOf (es1 ++ es2) =
        [Entry.txn r2.date FLAG_OKAY (paypalDesc r2)
          ["paypal", "currency-conversion"]
          [simple_posting PAYPAL_BAL a false r1.currency,
           { simple_posting PAYPAL_BAL b false r2.currency with
               price := some ⟨sigRound5 (-a / b), r1.currency⟩ }]] := by
  have hsk1 : r1.type ∉ paypalSkipTypes := by
    rw [ht1]
    decide
  have hsk2 : r2.type ∉ paypalSkipTypes := by
    rw [ht2]
    decide
  have hpp1 := paypalPostings_build_first s.firstConv r1 a PAYPAL_BAL
    (paypalSa2 r1 (paypalSa1 s.srcAcc a)) (paypalFlag r1) ht1 hbuf
  have hstep1 := paypalStep_build_main cb s r1 a []
    (some (simple_posting PAYPAL_BAL a false r1.currency)) hs1 ha hg1 hsk1 hpp1
  have hpp2 := paypalPostings_build_pair
    (some (simple_posting PAYPAL_BAL a false r1.currency)) r2 b PAYPAL_BAL
    (paypalSa2 r2 (paypalSa1 (paypalSa2 r1 (paypalSa1 s.srcAcc a)) b))
    (paypalFlag r2) (simple_posting PAYPAL_BAL a false r1.currency) ht2 rfl hb0
  have hstep2 := paypalStep_build_main cb
    ⟨(paypalBalBlock s r1).2,
     insertAssoc s.prevBalances r1.currency r1.balance,
     some (simple_posting PAYPAL_BAL a false r1.currency),
     paypalSa2 r1 (paypalSa1 s.srcAcc a)⟩ r2 b
    [Entry.txn r2.date FLAG_OKAY (paypalDesc r2)
      ["paypal", "currency-conversion"]
      [simple_posting PAYPAL_BAL a false r1.currency,
       pricedSecond (simple_posting PAYPAL_BAL a false r1.currency) b
         r2.currency]]
    (some (simple_posting PAYPAL_BAL a false r1.currency)) hs2 hb hg2 hsk2 hpp2
  refine ⟨_, _, _, _, hstep1, hstep2, ?_⟩
  rw [txnsOf_append, txnsOf_append, txnsOf_append]
  rw [paypalBalBlock_txnsOf s r1, paypalBalBlock_txnsOf _ r2]
  simp [pricedSecond]

/-- Witness for C5: a concrete conversion pair (100 USD, then -33 EUR),
whose rounded price is 3.0303 USD. -/
theorem c5_conversion_pair_price_witness :
    ∃ es1 s1 es2 s2,
      paypalStep 0 ⟨[], [], none, none⟩
        ⟨30, "", "General Currency Conversion", "Completed", some 100,
         "USD", "0.00"⟩ = .ok (es1, s1) ∧
      paypalStep 0 s1
        ⟨30, "", "General Currency Conversion", "Completed", some (-33),
         "EUR", "33.00"⟩ = .ok (es2, s2) ∧
      txnsOf (es1 ++ es2) =
        [Entry.txn 30 FLAG_OKAY "General Currency Conversion"
          ["paypal", "currency-conversion"]
          [simple_posting PAYPAL_BAL 100 false "USD",
           { simple_posting PAYPAL_BAL (-33) false "EUR" with
               price := some ⟨sigRound5 (-100 / -33), "USD"⟩ }]] :=
  c5_conversion_pair_price 0 ⟨[], [], none, none⟩
    ⟨30, "", "General Currency Conversion", "Completed", some 100,
     "USD", "0.00"⟩
    ⟨30, "", "General Currency Conversion", "Completed", some (-33),
     "EUR", "33.00"⟩
    100 (-33) (by decide) (by decide) (by decide) (by decide) (by decide)
    (by decide) (by decide) (by decide) (by decide) (by decide)

/-- C6 (amended): every transaction emitted by any of the three importers
has exactly two postings; a transaction not tagged 'currency-conversion'
has both postings in one currency summing exactly to zero; the combined
conversion transaction instead carries on its second posting the price
`sigRound5` of minus the amount ratio in the first posting's currency
(`txnWellFormed`), so its priced sum vanishes only up to that rounding
(see the counterexample). -/
theorem c6_postings_amended :
    (∀ (cb : ℤ) (currencies : List String) (od : ℤ) (pad : Bool)
       (dates : List ℤ) (rows : List PaypalRow),
       ((entriesOf (paypalExtract cb currencies od pad dates rows)).all
         txnWellFormed) = true) ∧
    (∀ (dict : List (String × String)) (od : ℤ) (dates : List ℤ)
       (rows : List UpworkRow),
       ((entriesOf (upworkExtract dict od dates rows)).all txnWellFormed)
         = true) ∧
    (∀ (stem sfx : String) (od : ℤ) (dates : List ℤ) (rows : List SchwabRow),
       ((entriesOf (schwabExtract stem sfx od dates rows)).all txnWellFormed)
         = true) := by
  refine ⟨?_, ?_, ?_⟩
  · intro cb currencies od pad dates rows
    rcases hres : paypalExtract cb currencies od pad dates rows
      with e | ⟨out, dates'⟩
    · rfl
    · obtain ⟨es, st, hrun, rfl, _⟩ :=
        paypalExtract_ok_inv cb currencies od pad dates rows out dates' hres
      show ((paypalOpenEntries currencies od pad ++ es).all txnWellFormed) = true
      rw [List.all_append, paypalOpenEntries_all_wf,
        runSteps_allEntries (paypalStep cb) txnWellFormed
          (fun s r es s' h => paypalStep_wf cb s r es s' h)
          rows ⟨dates, [], none, none⟩ es st hrun]
      rfl
  · intro dict od dates rows
    rcases hres : upworkExtract dict od dates rows with e | ⟨out, dates'⟩
    · rfl
    · obtain ⟨es, hrun, rfl⟩ :=
        upworkExtract_ok_inv dict od dates rows out dates' hres
      show ((upworkOpenEntries dict od ++ es).all txnWellFormed) = true
      rw [List.all_append, upworkOpenEntries_all_wf,
        runSteps_allEntries upworkStep txnWellFormed
          (fun s r es s' h => upworkStep_wf s r es s' h)
          rows dates es dates' hrun]
      rfl
  · intro stem sfx od dates rows
    rcases hres : schwabExtract stem sfx od dates rows with e | ⟨out, dates'⟩
    · rfl
    · obtain ⟨es, hrun, rfl⟩ :=
        schwabExtract_ok_inv stem sfx od dates rows out dates' hres
      show ((schwabOpenEntries _ _ _ od ++ es).all txnWellFormed) = true
      rw [List.all_append, schwabOpenEntries_all_wf,
        runSteps_allEntries _ txnWellFormed
          (fun s r es s' h => schwabStep_wf _ _ _ s r es s' h)
          rows dates es dates' hrun]
      rfl

/-- Counterexample for C6: the conversion pair (100 USD, -33 EUR) emits a
transaction whose priced postings sum to 100 + (-33)·3.0303 = 0.0001 ≠ 0,
so the claim's "sum to zero after applying the explicit conversion price"
fails whenever the exact ratio needs more than five significant figures. -/
theorem c6_conversion_sum_not_zero :
    txnsOf (entriesOf (paypalExtract 0 [USD] 0 false []
      [⟨30, "", "General Currency Conversion", "Completed", some 100,
        "USD", "0.00"⟩,
       ⟨30, "", "General Currency Conversion", "Completed", some (-33),
        "EUR", "33.00"⟩])) =
      [Entry.txn 30 FLAG_OKAY "General Currency Conversion"
        ["paypal", "currency-conversion"]
        [⟨PAYPAL_BAL, ⟨100, "USD"⟩, none⟩,
         ⟨PAYPAL_BAL, ⟨-33, "EUR"⟩, some ⟨30303 / 10000, "USD"⟩⟩]] ∧
    (100 : ℚ) + (-33) * (30303 / 10000) ≠ 0 :=
  ⟨by decide, by decide⟩

/-- C7: within one extract run of any importer, the emitted balance
assertions have pairwise-distinct (date, account, currency) keys, for every
input file and every starting content of the instance date set. -/
theorem c7_balance_assertion_unique :
    (∀ (cb : ℤ) (currencies : List String) (od : ℤ) (pad : Bool)
       (dates : List ℤ) (rows : List PaypalRow),
       (balKeys (entriesOf (paypalExtract cb currencies od pad dates
         rows))).Pairwise (fun a b => a ≠ b)) ∧
    (∀ (dict : List (String × String)) (od : ℤ) (dates : List ℤ)
       (rows : List UpworkRow),
       (balKeys (entriesOf (upworkExtract dict od dates rows))).Pairwise
         (fun a b => a ≠ b)) ∧
    (∀ (stem sfx : String) (od : ℤ) (dates : List ℤ) (rows : List SchwabRow),
       (balKeys (entriesOf (schwabExtract stem sfx od dates rows))).Pairwise
         (fun a b => a ≠ b)) := by
  refine ⟨?_, ?_, ?_⟩
  · intro cb currencies od pad dates rows
    rcases hres : paypalExtract cb currencies od pad dates rows
      with e | ⟨out, dates'⟩
    · exact List.Pairwise.nil
    · obtain ⟨es, st, hrun, rfl, _⟩ :=
        paypalExtract_ok_inv cb currencies od pad dates rows out dates' hres
      show (balKeys (paypalOpenEntries currencies od pad ++ es)).Pairwise _
      rw [balKeys_append, paypalOpenEntries_balKeys, List.nil_append]
      exact (runSteps_balKeys_pairwise (paypalStep cb)
        (fun st => (st.prevBalances.map Prod.fst).Nodup)
        (fun st => st.txnDates)
        (fun s r es s' hI h => paypalStep_keyInv cb s r es s' hI h)
        rows ⟨dates, [], none, none⟩ es st List.nodup_nil hrun).2.2.2
  · intro dict od dates rows
    rcases hres : upworkExtract dict od dates rows with e | ⟨out, dates'⟩
    · exact List.Pairwise.nil
    · obtain ⟨es, hrun, rfl⟩ :=
        upworkExtract_ok_inv dict od dates rows out dates' hres
      show (balKeys (upworkOpenEntries dict od ++ es)).Pairwise _
      rw [balKeys_append, upworkOpenEntries_balKeys, List.nil_append]
      exact (runSteps_balKeys_pairwise upworkStep (fun _ => True)
        (fun st => st.map (· + 1))
        (fun s r es s' _ h =>
          have k := stepWithBalance_keyInv upworkCore upworkBal
            (fun r => r.date) upworkCore_nb
            (fun r => ⟨UPWORK_BAL, r.balance, USD, rfl⟩) s r es s' h
          ⟨trivial, k.1, k.2.1, k.2.2⟩)
        rows dates es dates' trivial hrun).2.2.2
  · intro stem sfx od dates rows
    rcases hres : schwabExtract stem sfx od dates rows with e | ⟨out, dates'⟩
    · exact List.Pairwise.nil
    · obtain ⟨es, hrun, rfl⟩ :=
        schwabExtract_ok_inv stem sfx od dates rows out dates' hres
      show (balKeys (schwabOpenEntries _ _ _ od ++ es)).Pairwise _
      rw [balKeys_append, schwabOpenEntries_balKeys, List.nil_append]
      exact (runSteps_balKeys_pairwise _ (fun _ => True)
        (fun st => st.map (· + 1))
        (fun s r es s' _ h =>
          have k := stepWithBalance_keyInv _ (schwabBal (stem ++ ":" ++ sfx))
            (fun r => r.date) (schwabCore_nb _ _ _)
            (fun r => ⟨stem ++ ":" ++ sfx, r.balance, USD, rfl⟩) s r es s' h
          ⟨trivial, k.1, k.2.1, k.2.2⟩)
        rows dates es dates' trivial hrun).2.2.2

/-- C8 (amended): the per-call state (balance map, conversion buffer, the
`src_acc` local) is rebuilt on every `extract` call, but `self.txn_dates`
is instance state that persists across calls; a second extract of the same
file therefore reproduces the first call's entries with the balance
assertions filtered out, rather than the same sequence. -/
theorem c8_instance_state_persists :
    (∀ (cb : ℤ) (currencies : List String) (od : ℤ) (pad : Bool)
       (dates0 : List ℤ) (rows : List PaypalRow) (out1 : List Entry)
       (dates1 : List ℤ),
       paypalExtract cb currencies od pad dates0 rows = .ok (out1, dates1) →
       paypalExtract cb currencies od pad dates1 rows =
         .ok (out1.filter (fun e => !isBalanceB e), dates1)) ∧
    (∀ (dict : List (String × String)) (od : ℤ) (dates0 : List ℤ)
       (rows : List UpworkRow) (out1 : List Entry) (dates1 : List ℤ),
       upworkExtract dict od dates0 rows = .ok (out1, dates1) →
       upworkExtract dict od dates1 rows =
         .ok (out1.filter (fun e => !isBalanceB e), dates1)) ∧
    (∀ (stem sfx : String) (od : ℤ) (dates0 : List ℤ) (rows : List SchwabRow)
       (out1 : List Entry) (dates1 : List ℤ),
       schwabExtract stem sfx od dates0 rows = .ok (out1, dates1) →
       schwabExtract stem sfx od dates1 rows =
         .ok (out1.filter (fun e => !isBalanceB e), dates1)) := by
  refine ⟨?_, ?_, ?_⟩
  · intro cb currencies od pad dates0 rows out1 dates1 h
    obtain ⟨es, st, hrun, rfl, rfl⟩ :=
      paypalExtract_ok_inv cb currencies od pad dates0 rows out1 dates1 h
    have hrun2 := paypalRun_second cb rows dates0 [] none none es st hrun
    simp only [paypalExtract, hrun2]
    rw [List.filter_append, paypalOpenEntries_filter_nb]
  · intro dict od dates0 rows out1 dates1 h
    obtain ⟨es, hrun, rfl⟩ :=
      upworkExtract_ok_inv dict od dates0 rows out1 dates1 h
    have hrun2 := runSteps_second_dates upworkStep
      (fun s r es s' h => stepWithBalance_datesMono upworkCore upworkBal
        (fun r => r.date) s r es s' h)
      (fun s r es s' h s2 hs2 => stepWithBalance_second upworkCore upworkBal
        (fun r => r.date) upworkCore_nb (fun r => rfl) s r es s' h s2 hs2)
      rows dates0 es dates1 hrun
    simp only [upworkExtract, hrun2]
    rw [List.filter_append, upworkOpenEntries_filter_nb]
  · intro stem sfx od dates0 rows out1 dates1 h
    obtain ⟨es, hrun, rfl⟩ :=
      schwabExtract_ok_inv stem sfx od dates0 rows out1 dates1 h
    have hrun2 := runSteps_second_dates
      (schwabStep (stem ++ ":" ++ sfx) ("Income:Schwab:AtmRebate:" ++ sfx)
        ("Income:Schwab:Interest:" ++ sfx))
      (fun s r es s' h => stepWithBalance_datesMono
        (schwabCore (stem ++ ":" ++ sfx) ("Income:Schwab:AtmRebate:" ++ sfx)
          ("Income:Schwab:Interest:" ++ sfx))
        (schwabBal (stem ++ ":" ++ sfx)) (fun r => r.date) s r es s' h)
      (fun s r es s' h s2 hs2 => stepWithBalance_second
        (schwabCore (stem ++ ":" ++ sfx) ("Income:Schwab:AtmRebate:" ++ sfx)
          ("Income:Schwab:Interest:" ++ sfx))
        (schwabBal (stem ++ ":" ++ sfx)) (fun r => r.date)
        (schwabCore_nb (stem ++ ":" ++ sfx) ("Income:Schwab:AtmRebate:" ++ sfx)
          ("Income:Schwab:Interest:" ++ sfx))
        (fun r => rfl) s r es s' h s2 hs2)
      rows dates0 es dates1 hrun
    simp only [schwabExtract, hrun2]
    rw [List.filter_append, schwabOpenEntries_filter_nb]

/-- Witness for C8: a one-row Upwork file extracted twice in succession;
the second call reproduces the first minus the balance assertion. -/
theorem c8_instance_state_persists_witness :
    upworkExtract [] 0 [20] [⟨20, "Bonus", "B", 10, "100.00"⟩] =
      .ok (([Entry.openAcc 0 UPWORK_BAL [USD],
             Entry.openAcc 0 UPWORK_FP [USD],
             Entry.openAcc 0 UPWORK_BON [USD],
             Entry.openAcc 0 UPWORK_HR [USD],
             Entry.openAcc 0 UPWORK_MISC [USD],
             Entry.openAcc 0 UPWORK_SF [USD],
             Entry.openAcc 0 UPWORK_REF [USD],
             Entry.txn 20 FLAG_OKAY "B" ["Upwork-Bonus"]
               [⟨UPWORK_BAL, ⟨10, USD⟩, none⟩, ⟨UPWORK_BON, ⟨-10, USD⟩, none⟩],
             Entry.balance 21 UPWORK_BAL "100.00" USD].filter
              (fun e => !isBalanceB e)), [20]) :=
  c8_instance_state_persists.2.1 [] 0 [] [⟨20, "Bonus", "B", 10, "100.00"⟩]
    _ [20] (by decide)

/-- Counterexample for C8: calling extract twice in succession on the same
one-row Upwork file yields different sequences — the first call's balance
assertion (dated the day after the row, distinct date 21) is missing from
the second call's output because `self.txn_dates` carried over. -/
theorem c8_second_extract_differs :
    upworkExtract [] 0 [] [⟨20, "Bonus", "B", 10, "100.00"⟩] =
      .ok ([Entry.openAcc 0 UPWORK_BAL [USD],
            Entry.openAcc 0 UPWORK_FP [USD],
            Entry.openAcc 0 UPWORK_BON [USD],
            Entry.openAcc 0 UPWORK_HR [USD],
            Entry.openAcc 0 UPWORK_MISC [USD],
            Entry.openAcc 0 UPWORK_SF [USD],
            Entry.openAcc 0 UPWORK_REF [USD],
            Entry.txn 20 FLAG_OKAY "B" ["Upwork-Bonus"]
              [⟨UPWORK_BAL, ⟨10, USD⟩, none⟩, ⟨UPWORK_BON, ⟨-10, USD⟩, none⟩],
            Entry.balance 21 UPWORK_BAL "100.00" USD], [20]) ∧
    upworkExtract [] 0 [20] [⟨20, "Bonus", "B", 10, "100.00"⟩] =
      .ok ([Entry.openAcc 0 UPWORK_BAL [USD],
            Entry.openAcc 0 UPWORK_FP [USD],
            Entry.openAcc 0 UPWORK_BON [USD],
            Entry.openAcc 0 UPWORK_HR [USD],
            Entry.openAcc 0 UPWORK_MISC [USD],
            Entry.openAcc 0 UPWORK_SF [USD],
            Entry.openAcc 0 UPWORK_REF [USD],
            Entry.txn 20 FLAG_OKAY "B" ["Upwork-Bonus"]
              [⟨UPWORK_BAL, ⟨10, USD⟩, none⟩, ⟨UPWORK_BON, ⟨-10, USD⟩, none⟩]],
           [20]) ∧
    ([Entry.openAcc 0 UPWORK_BAL [USD],
      Entry.openAcc 0 UPWORK_FP [USD],
      Entry.openAcc 0 UPWORK_BON [USD],
      Entry.openAcc 0 UPWORK_HR [USD],
      Entry.openAcc 0 UPWORK_MISC [USD],
      Entry.openAcc 0 UPWORK_SF [USD],
      Entry.openAcc 0 UPWORK_REF [USD],
      Entry.txn 20 FLAG_OKAY "B" ["Upwork-Bonus"]
        [⟨UPWORK_BAL, ⟨10, USD⟩, none⟩, ⟨UPWORK_BON, ⟨-10, USD⟩, none⟩],
      Entry.balance 21 UPWORK_BAL "100.00" USD] ≠
     [Entry.openAcc 0 UPWORK_BAL [USD],
      Entry.openAcc 0 UPWORK_FP [USD],
      Entry.openAcc 0 UPWORK_BON [USD],
      Entry.openAcc 0 UPWORK_HR [USD],
      Entry.openAcc 0 UPWORK_MISC [USD],
      Entry.openAcc 0 UPWORK_SF [USD],
      Entry.openAcc 0 UPWORK_REF [USD],
      Entry.txn 20 FLAG_OKAY "B" ["Upwork-Bonus"]
        [⟨UPWORK_BAL, ⟨10, USD⟩, none⟩, ⟨UPWORK_BON, ⟨-10, USD⟩, none⟩]]) :=
  ⟨by decide, by decide, by decide⟩

/-- C9: a PayPal row whose reported balance string equals the last
recorded balance for its currency is a ghost row: the step emits no entry
at all (in particular no transaction) and leaves the pending conversion
buffer, the balance map and the date set exactly as they were. -/
theorem c9_ghost_row (cb : ℤ) (s : PaypalState) (r : PaypalRow) (amt : ℚ)
    (hst : r.status ∈ paypalValidStatuses) (ha : r.amount = some amt)
    (hg : lookupAssoc s.prevBalances r.currency = some r.balance) :
    ∃ s', paypalStep cb s r = .ok ([], s') ∧
      s'.firstConv = s.firstConv ∧ s'.prevBalances = s.prevBalances ∧
      s'.txnDates = s.txnDates :=
  ⟨{ s with srcAcc := paypalSa1 s.srcAcc amt },
   paypalStep_build_ghost cb s r amt hst ha hg, rfl, rfl, rfl⟩

/-- Witness for C9: a concrete ghost row over a buffered conversion leg. -/
theorem c9_ghost_row_witness :
    ∃ s', paypalStep 0
        ⟨[30], [("USD", "5.00")], some ⟨PAYPAL_BAL, ⟨100, "USD"⟩, none⟩, none⟩
        ⟨31, "", "Mobile Payment", "Completed", some 3, "USD", "5.00"⟩ =
      .ok ([], s') ∧
      s'.firstConv = some ⟨PAYPAL_BAL, ⟨100, "USD"⟩, none⟩ ∧
      s'.prevBalances = [("USD", "5.00")] ∧
      s'.txnDates = [30] :=
  c9_ghost_row 0
    ⟨[30], [("USD", "5.00")], some ⟨PAYPAL_BAL, ⟨100, "USD"⟩, none⟩, none⟩
    ⟨31, "", "Mobile Payment", "Completed", some 3, "USD", "5.00"⟩ 3
    (by decide) (by decide) (by decide)

/-- C10: (pairing) a conversion row processed with a buffered first leg
`p` emits one combined transaction pairing `p` with the current row and
leaves the buffer still holding `p` — so in a run of three or more
consecutive conversion rows every row after the first pairs with the first
row's posting; (clearing) the buffer becomes empty only by processing a
non-conversion row that none of the empty-amount, ghost-row or skip-type
rules skipped. -/
theorem c10_conversion_buffer :
    (∀ (cb : ℤ) (s : PaypalState) (r : PaypalRow) (es : List Entry)
       (s' : PaypalState) (p : Posting) (a : ℚ),
       paypalStep cb s r = .ok (es, s') → s.firstConv = some p →
       r.type = "General Currency Conversion" → r.amount = some a →
       lookupAssoc s.prevBalances r.currency ≠ some r.balance →
       s'.firstConv = some p ∧
       txnsOf es = [Entry.txn r.date FLAG_OKAY (paypalDesc r)
         ["paypal", "currency-conversion"] [p, pricedSecond p a r.currency]]) ∧
    (∀ (cb : ℤ) (s : PaypalState) (r : PaypalRow) (es : List Entry)
       (s' : PaypalState),
       paypalStep cb s r = .ok (es, s') → s.firstConv ≠ none →
       s'.firstConv = none →
       r.type ≠ "General Currency Conversion" ∧ r.amount ≠ none ∧
       lookupAssoc s.prevBalances r.currency ≠ some r.balance ∧
       r.type ∉ paypalSkipTypes) := by
  constructor
  · intro cb s r es s' p a h hp ht ha hg
    obtain ⟨hst, hcase⟩ := paypalStep_ok_inv cb s r es s' h
    rcases hcase with ⟨ha0, _, _⟩ | ⟨amt, haa, hcase⟩
    · rw [ha] at ha0
      exact absurd ha0 (by simp)
    · rw [ha] at haa
      injection haa with haa
      subst haa
      rcases hcase with ⟨hg0, _, _⟩ | ⟨_, hsk, _, _⟩ |
        ⟨txnEntries, fc2, hg', hsk', hpp, rfl, rfl⟩
      · exact absurd hg0 hg
      · rw [ht] at hsk
        exact absurd hsk (by decide)
      · rcases paypalPostings_ok_inv s.firstConv r a PAYPAL_BAL
          (paypalSa2 r (paypalSa1 s.srcAcc a)) (paypalFlag r)
          txnEntries fc2 hpp with
          ⟨_, hfc0, _, _⟩ | ⟨p1, _, hfc1, h0, rfl, rfl⟩ | ⟨src, htne, _⟩
        · rw [hp] at hfc0
          exact absurd hfc0 (by simp)
        · rw [hp] at hfc1
          injection hfc1 with hfc1
          subst hfc1
          refine ⟨rfl, ?_⟩
          rw [txnsOf_append, paypalBalBlock_txnsOf s r]
          simp
        · exact absurd ht htne
  · intro cb s r es s' h hne h0
    obtain ⟨hst, hcase⟩ := paypalStep_ok_inv cb s r es s' h
    rcases hcase with ⟨_, _, rfl⟩ | ⟨amt, haa, hcase⟩
    · exact absurd h0 hne
    · rcases hcase with ⟨_, _, rfl⟩ | ⟨_, _, _, rfl⟩ |
        ⟨txnEntries, fc2, hg, hsk, hpp, rfl, rfl⟩
      · exact absurd h0 hne
      · exact absurd h0 hne
      · rcases paypalPostings_ok_inv s.firstConv r amt PAYPAL_BAL
          (paypalSa2 r (paypalSa1 s.srcAcc amt)) (paypalFlag r)
          txnEntries fc2 hpp with
          ⟨_, _, _, hfc2⟩ | ⟨p1, _, _, _, _, hfc2⟩ | ⟨src, htne, _, _, hfc2⟩
        · have h0x : fc2 = none := h0
          rw [hfc2] at h0x
          exact absurd h0x (by simp)
        · have h0x : fc2 = none := h0
          rw [hfc2] at h0x
          exact absurd h0x (by simp)
        · exact ⟨htne, by simp [haa], hg, hsk⟩

/-- Witness for C10: both conjuncts at concrete inputs — a third
conversion row pairing with the originally buffered leg, and a plain row
clearing the buffer. -/
theorem c10_conversion_buffer_witness :
    (((⟨[30], [("EUR", "33.00")],
        some ⟨PAYPAL_BAL, ⟨100, "USD"⟩, none⟩,
        some DEFAULT_EXPENSE_ACC⟩ : PaypalState).firstConv =
        some ⟨PAYPAL_BAL, ⟨100, "USD"⟩, none⟩ ∧
      txnsOf [Entry.txn 30 FLAG_OKAY "General Currency Conversion"
          ["paypal", "currency-conversion"]
          [⟨PAYPAL_BAL, ⟨100, "USD"⟩, none⟩,
           pricedSecond ⟨PAYPAL_BAL, ⟨100, "USD"⟩, none⟩ (-33) "EUR"]] =
        [Entry.txn 30 FLAG_OKAY "General Currency Conversion"
          ["paypal", "currency-conversion"]
          [⟨PAYPAL_BAL, ⟨100, "USD"⟩, none⟩,
           pricedSecond ⟨PAYPAL_BAL, ⟨100, "USD"⟩, none⟩ (-33) "EUR"]]) ∧
    (("T" : String) ≠ "General Currency Conversion" ∧
      (some (5 : ℚ) : Option ℚ) ≠ none ∧
      lookupAssoc [] "USD" ≠ some "9.00" ∧
      ("T" : String) ∉ paypalSkipTypes)) := by
  constructor
  · exact c10_conversion_buffer.1 0
      ⟨[], [], some ⟨PAYPAL_BAL, ⟨100, "USD"⟩, none⟩, none⟩
      ⟨30, "", "General Currency Conversion", "Completed", some (-33),
       "EUR", "33.00"⟩
      _ ⟨[30], [("EUR", "33.00")], some ⟨PAYPAL_BAL, ⟨100, "USD"⟩, none⟩,
         some DEFAULT_EXPENSE_ACC⟩
      ⟨PAYPAL_BAL, ⟨100, "USD"⟩, none⟩ (-33)
      (by decide) (by decide) (by decide) (by decide) (by decide)
  · exact c10_conversion_buffer.2 0
      ⟨[], [], some ⟨PAYPAL_BAL, ⟨100, "USD"⟩, none⟩, none⟩
      ⟨20, "", "T", "Completed", some 5, "USD", "9.00"⟩
      [Entry.txn 20 FLAG_WARNING "T" ["paypal"]
        [⟨PAYPAL_BAL, ⟨5, "USD"⟩, none⟩,
         ⟨DEFAULT_INCOME_ACC, ⟨-5, "USD"⟩, none⟩]]
      ⟨[20], [("USD", "9.00")], none, some DEFAULT_INCOME_ACC⟩
      (by decide) (by decide) (by decide)
